import Mathlib

set_option maxRecDepth 2000

/-!
Shallow embedding of the powder-simulation core from src/main.rs:
the material registry (Kind), the grid/cell model (Particle, World),
the update engine (World.update) and the paint interface
(World.set_pixel).  Randomness is modelled by threading an explicit
draw-stream state (Rng) through the update, one slot per call of
gen bool / gen_range in the source; quantifying over all streams
covers every possible sequence of random draws.
-/

/-- Grid width constant from the source (const GRID_WIDTH: u32 = 320). -/
def GRID_WIDTH : Nat := 320

/-- Grid height constant from the source (const GRID_HEIGHT: u32 = 240). -/
def GRID_HEIGHT : Nat := 240

/-- Material kinds, mirroring enum Kind. -/
inductive Kind where
  | Empty
  | Sand
  | Gravel
  | Water
  | Stone
deriving DecidableEq, Repr

/-- RGBA display color of a material, mirroring Kind::color. -/
def Kind.color : Kind → Nat × Nat × Nat × Nat
  | Kind.Empty => (0, 0, 0, 0)
  | Kind.Sand => (0xC2, 0xB2, 0x80, 0xFF)
  | Kind.Gravel => (0x60, 0x60, 0x60, 0xFF)
  | Kind.Water => (0x00, 0x96, 0xFF, 0xFF)
  | Kind.Stone => (0xCC, 0xCC, 0xCC, 0xFF)

/-- A grid cell, mirroring struct Particle (kind + touched marker). -/
structure Particle where
  kind : Kind
  touched : Bool
deriving DecidableEq, Repr

/-- Default cell, mirroring impl Default for Particle. -/
def Particle.default : Particle := { kind := Kind.Empty, touched := false }

/-- Particle::empty from the source. -/
def Particle.empty (p : Particle) : Bool := p.kind == Kind.Empty

/-- The cell array, indexed row-first as in self.particles[y][x].
Out-of-range indices are never written by the engine; reads made by the
engine are all in range (claim C9). -/
abbrev Grid := Nat → Nat → Particle

/-- Point mutation of one cell, mirroring an assignment
self.particles[y][x] = p. -/
def setCell (g : Grid) (y x : Nat) (p : Particle) : Grid :=
  fun y' x' => if y' = y ∧ x' = x then p else g y' x'

/-- The three-statement in-place exchange used by the Sand and Gravel arms:
let self_kind = self.particles[y1][x1];
self.particles[y1][x1] = self.particles[y2][x2];
self.particles[y2][x2] = self_kind. -/
def swapCells (g : Grid) (y1 x1 y2 x2 : Nat) : Grid :=
  setCell (setCell g y1 x1 (g y2 x2)) y2 x2 (g y1 x1)

/-- struct World: the cell grid plus the tick-parity flag. -/
structure World where
  particles : Grid
  clock : Bool

/-- World::new: all-default grid, clock false. -/
def World.new : World :=
  { particles := fun _ _ => Particle.default, clock := false }

/-- Explicit random-draw state standing for the rand::thread_rng()
handle used inside World::update.  bools models successive
rng.gen bool calls, nats feeds successive rng.gen_range calls;
bi and ni are the positions already consumed in each stream. -/
structure Rng where
  bools : Nat → Bool
  nats : Nat → Nat
  bi : Nat
  ni : Nat

/-- One rng.gen bool draw. -/
def Rng.genBool (r : Rng) : Bool × Rng :=
  (r.bools r.bi, { r with bi := r.bi + 1 })

/-- One rng.gen_range(lo..hi) draw; the produced value lies in
[lo, hi) for lo < hi, covering every value a uniform draw can give. -/
def Rng.genRange (r : Rng) (lo hi : Nat) : Nat × Rng :=
  (lo + r.nats r.ni % (hi - lo), { r with ni := r.ni + 1 })

/-- Rust bool-to-integer cast (b as i32). -/
def boolToInt (b : Bool) : Int := if b then 1 else 0

/-- The five random draws made by the Water arm, in source order:
n = gen_range(1..3), sign = gen bool, x_off = gen bool,
n = gen_range(2..5), sign = gen bool. -/
def waterDraws (r : Rng) : Nat × Bool × Bool × Nat × Bool × Rng :=
  let a := r.genRange 1 3
  let b := a.2.genBool
  let c := b.2.genBool
  let d := c.2.genRange 2 5
  let e := d.2.genBool
  (a.1, b.1, c.1, d.1, e.1, e.2)

/-- The diagonal column tried by Sand when straight down is blocked:
new_x = x as i32 + (rng.gen bool as i32 * 2 - 1). -/
def sandNewX (r : Rng) (x : Nat) : Int :=
  (x : Int) + (boolToInt (r.genBool).1 * 2 - 1)

/-- The Kind::Sand arm of the update match (lines 94-117 of main.rs). -/
def sandStep (g : Grid) (r : Rng) (y x : Nat) : Grid × Rng :=
  if y < GRID_HEIGHT - 1 then
    if (g (y + 1) x).empty || ((g (y + 1) x).kind == Kind.Water) then
      (swapCells g y x (y + 1) x, r)
    else
      if 0 ≤ sandNewX r x ∧ sandNewX r x < (GRID_WIDTH : Int) then
        if (g (y + 1) (sandNewX r x).toNat).empty ||
            ((g (y + 1) (sandNewX r x).toNat).kind == Kind.Water) then
          (swapCells g y x (y + 1) (sandNewX r x).toNat, (r.genBool).2)
        else (g, (r.genBool).2)
      else (g, (r.genBool).2)
  else (g, r)

/-- The Kind::Gravel arm of the update match (lines 118-128 of main.rs). -/
def gravelStep (g : Grid) (r : Rng) (y x : Nat) : Grid × Rng :=
  if y < GRID_HEIGHT - 1 then
    if (g (y + 1) x).empty || ((g (y + 1) x).kind == Kind.Water) then
      (swapCells g y x (y + 1) x, r)
    else (g, r)
  else (g, r)

/-- First draw of the Water arm: n = gen_range(1..3). -/
def wN1 (r : Rng) : Nat := (waterDraws r).1

/-- Second draw of the Water arm: the sign bool of the first candidate. -/
def wSb1 (r : Rng) : Bool := (waterDraws r).2.1

/-- Third draw of the Water arm: the x_off bool of the lateral candidate. -/
def wSb4 (r : Rng) : Bool := (waterDraws r).2.2.1

/-- Fourth draw of the Water arm: n = gen_range(2..5). -/
def wN5 (r : Rng) : Nat := (waterDraws r).2.2.2.1

/-- Fifth draw of the Water arm: the sign bool of the third candidate. -/
def wSb5 (r : Rng) : Bool := (waterDraws r).2.2.2.2.1

/-- The rng state after the five draws of the Water arm. -/
def wRest (r : Rng) : Rng := (waterDraws r).2.2.2.2.2

/-- new_x1 = x + n * sign with n = gen_range(1..3), sign = plus/minus 1. -/
def waterNewX1 (r : Rng) (x : Nat) : Int :=
  (x : Int) + (wN1 r : Int) * (boolToInt (wSb1 r) * 2 - 1)

/-- check_x1 = x + (n - 1) * sign, the stepping-stone column of the
first candidate. -/
def waterCheckX1 (r : Rng) (x : Nat) : Int :=
  (x : Int) + ((wN1 r : Int) - 1) * (boolToInt (wSb1 r) * 2 - 1)

/-- new_x4 = x - x_off with x_off = plus/minus 1. -/
def waterNewX4 (r : Rng) (x : Nat) : Int :=
  (x : Int) - (boolToInt (wSb4 r) * 2 - 1)

/-- new_x5 = x + n * sign with n = gen_range(2..5), sign = plus/minus 1. -/
def waterNewX5 (r : Rng) (x : Nat) : Int :=
  (x : Int) + (wN5 r : Int) * (boolToInt (wSb5 r) * 2 - 1)

/-- check_x5 = x + (n - 1) * sign, the stepping-stone column of the
third candidate. -/
def waterCheckX5 (r : Rng) (x : Nat) : Int :=
  (x : Int) + ((wN5 r : Int) - 1) * (boolToInt (wSb5 r) * 2 - 1)

/-- The Kind::Water arm of the update match (lines 129-177 of main.rs).
Note that the destination of the third candidate is row y (the source
line reads self.particles[y][new_x5 as usize]), while its
stepping-stone check reads row new_y = y + 1. -/
def waterStep (g : Grid) (r : Rng) (y x : Nat) : Grid × Rng :=
  if y < GRID_HEIGHT - 1 ∧ (g (y + 1) x).empty then
    (setCell (setCell g (y + 1) x (g y x)) y x Particle.default, r)
  else
    if y < GRID_HEIGHT - 1 ∧ (0 ≤ waterNewX1 r x ∧ waterNewX1 r x < (GRID_WIDTH : Int)) ∧
        (g (y + 1) (waterNewX1 r x).toNat).empty ∧
        (g (y + 1) (waterCheckX1 r x).toNat).kind = Kind.Water then
      (setCell (setCell g (y + 1) (waterNewX1 r x).toNat (g y x)) y x Particle.default, wRest r)
    else if (0 ≤ waterNewX4 r x ∧ waterNewX4 r x < (GRID_WIDTH : Int)) ∧
        (g y (waterNewX4 r x).toNat).empty then
      (setCell (setCell g y (waterNewX4 r x).toNat (g y x)) y x Particle.default, wRest r)
    else if y < GRID_HEIGHT - 1 ∧ (0 ≤ waterNewX5 r x ∧ waterNewX5 r x < (GRID_WIDTH : Int)) ∧
        (g y (waterNewX5 r x).toNat).empty ∧
        (g (y + 1) (waterCheckX5 r x).toNat).kind = Kind.Water then
      (setCell (setCell g y (waterNewX5 r x).toNat (g y x)) y x Particle.default, wRest r)
    else (g, wRest r)

/-- Body of the double scan loop of World::update for one cell:
the touched-parity skip, the touched toggle, and the per-kind match.
The source rereads self.particles[y][x].kind after the toggle write;
the toggle leaves the kind unchanged, so the match scrutinee below is
that same value. -/
def stepCell (clock : Bool) (g : Grid) (r : Rng) (y x : Nat) : Grid × Rng :=
  if (g y x).touched == clock then (g, r)
  else
    let gT := setCell g y x { kind := (g y x).kind, touched := !(g y x).touched }
    match (g y x).kind with
    | Kind.Empty => (gT, r)
    | Kind.Stone => (gT, r)
    | Kind.Sand => sandStep gT r y x
    | Kind.Gravel => gravelStep gT r y x
    | Kind.Water => waterStep gT r y x

/-- Column scan order x_ord_hack: ascending on one parity,
descending on the other. -/
def xOrd (clock : Bool) : List Nat :=
  if clock then List.range GRID_WIDTH else (List.range GRID_WIDTH).reverse

/-- Row scan order: bottom to top ((0..GRID_HEIGHT).rev()). -/
def yOrd : List Nat := (List.range GRID_HEIGHT).reverse

/-- One row of the scan: the inner for loop over x_ord_hack. -/
def scanRow (clock : Bool) (y : Nat) (gr : Grid × Rng) : Grid × Rng :=
  (xOrd clock).foldl (fun gr x => stepCell clock gr.1 gr.2 y x) gr

/-- World::update: flip the parity flag, then scan every cell bottom-up
in the parity-dependent column order.  The explicit Rng state stands for
the thread-local generator created at the top of the function. -/
def World.update (w : World) (r : Rng) : World × Rng :=
  let clock := !w.clock
  let gr := yOrd.foldl (fun gr y => scanRow clock y gr) (w.particles, r)
  ({ particles := gr.1, clock := clock }, gr.2)

/-- World::set_pixel: bounds check, erase-always / paint-only-on-empty
guard, and the single-cell write with touched = self.clock. -/
def World.set_pixel (w : World) (p : Nat × Nat) (kind : Kind) : World :=
  if p.1 < GRID_WIDTH ∧ p.2 < GRID_HEIGHT ∧
      (kind = Kind.Empty ∨ (w.particles p.2 p.1).empty) then
    { w with particles := setCell w.particles p.2 p.1 { kind := kind, touched := w.clock } }
  else w

/-- Number of non-Empty cells of the grid (the conserved mass). -/
def cellMass (p : Particle) : Nat := if p.kind = Kind.Empty then 0 else 1

/-- Total non-Empty cell count over the whole grid. -/
def countNonEmpty (g : Grid) : Nat :=
  ∑ y ∈ Finset.range GRID_HEIGHT, ∑ x ∈ Finset.range GRID_WIDTH, cellMass (g y x)

/-! Basic cell-update lemmas. -/

theorem setCell_self (g : Grid) (y x : Nat) (p : Particle) :
    setCell g y x p y x = p := by
  simp [setCell]

theorem setCell_ne (g : Grid) (y x : Nat) (p : Particle) (y' x' : Nat)
    (h : ¬(y' = y ∧ x' = x)) : setCell g y x p y' x' = g y' x' := by
  simp [setCell, h]

theorem setCell_kind_eq (g : Grid) (y x : Nat) (b : Bool) (y' x' : Nat) :
    (setCell g y x ⟨(g y x).kind, b⟩ y' x').kind = (g y' x').kind := by
  by_cases hc : y' = y ∧ x' = x
  · obtain ⟨rfl, rfl⟩ := hc
    rw [setCell_self]
  · rw [setCell_ne g y x _ y' x' hc]

theorem bool_ne_eq_not {a b : Bool} (h : a ≠ b) : (!a) = b := by
  cases a <;> cases b <;> simp_all

/-- A cell whose step cannot move anything: Empty, Stone, or already
carrying the new parity (skipped).  In all three cases the step leaves
the cell with its kind and touched = clock, and changes nothing else. -/
def quietP (clock : Bool) (p : Particle) : Prop :=
  p.kind = Kind.Empty ∨ p.kind = Kind.Stone ∨ p.touched = clock

theorem stepCell_skip (clock : Bool) (g : Grid) (r : Rng) (y x : Nat)
    (h : (g y x).touched = clock) : stepCell clock g r y x = (g, r) := by
  simp [stepCell, h]

theorem stepCell_quiet (clock : Bool) (g : Grid) (r : Rng) (y x : Nat)
    (h : quietP clock (g y x)) :
    stepCell clock g r y x = (setCell g y x ⟨(g y x).kind, clock⟩, r) := by
  by_cases ht : (g y x).touched = clock
  · rw [stepCell_skip clock g r y x ht]
    have hg : setCell g y x ⟨(g y x).kind, clock⟩ = g := by
      funext y' x'
      by_cases hc : y' = y ∧ x' = x
      · obtain ⟨rfl, rfl⟩ := hc
        rw [setCell_self, ← ht]
      · rw [setCell_ne g y x _ y' x' hc]
    rw [hg]
  · have hb : ((g y x).touched == clock) = false := by
      simpa using ht
    have hn : (!(g y x).touched) = clock := by
      cases htc : (g y x).touched <;> cases hcc : clock <;> simp_all
    have hk : (g y x).kind = Kind.Empty ∨ (g y x).kind = Kind.Stone := by
      rcases h with h | h | h
      · exact Or.inl h
      · exact Or.inr h
      · exact absurd h ht
    unfold stepCell
    rw [hb, hn]
    rcases hk with hk | hk <;> rw [hk] <;> rfl

/-- Folding the scan step over a list of columns of one row, all of whose
cells are quiet, only stamps touched = clock on those cells. -/
theorem foldQuiet (clock : Bool) (y : Nat) :
    ∀ (L : List Nat) (g : Grid) (r : Rng),
      (∀ x ∈ L, quietP clock (g y x)) →
      L.foldl (fun gr x => stepCell clock gr.1 gr.2 y x) (g, r) =
        (fun y' x' => if y' = y ∧ x' ∈ L then ⟨(g y x').kind, clock⟩ else g y' x', r) := by
  intro L
  induction L with
  | nil =>
    intro g r _
    simp only [List.foldl_nil, List.not_mem_nil, and_false, if_false]
  | cons a L ih =>
    intro g r hq
    have hqa : quietP clock (g y a) := hq a (List.mem_cons_self a L)
    have hstep : stepCell clock g r y a = (setCell g y a ⟨(g y a).kind, clock⟩, r) :=
      stepCell_quiet clock g r y a hqa
    set g1 := setCell g y a ⟨(g y a).kind, clock⟩ with hg1
    have hq1 : ∀ x ∈ L, quietP clock (g1 y x) := by
      intro x hx
      by_cases hxa : x = a
      · subst hxa
        rw [hg1, setCell_self]
        exact Or.inr (Or.inr rfl)
      · rw [hg1, setCell_ne g y a _ y x (by simp [hxa])]
        exact hq x (List.mem_cons_of_mem a hx)
    have hrec := ih g1 r hq1
    calc (a :: L).foldl (fun gr x => stepCell clock gr.1 gr.2 y x) (g, r)
        = L.foldl (fun gr x => stepCell clock gr.1 gr.2 y x) (g1, r) := by
          rw [List.foldl_cons]
          simp only [hstep]
      _ = (fun y' x' => if y' = y ∧ x' ∈ L then ⟨(g1 y x').kind, clock⟩ else g1 y' x', r) := hrec
      _ = (fun y' x' => if y' = y ∧ x' ∈ a :: L then ⟨(g y x').kind, clock⟩ else g y' x', r) := by
          refine Prod.ext ?_ rfl
          funext y' x'
          simp only []
          by_cases hy : y' = y
          · by_cases hm : x' ∈ L
            · rw [if_pos ⟨hy, hm⟩, if_pos ⟨hy, List.mem_cons_of_mem a hm⟩]
              have : (g1 y x').kind = (g y x').kind := by
                rw [hg1]
                exact setCell_kind_eq g y a clock y x'
              rw [this]
            · rw [if_neg (fun hc => hm hc.2)]
              by_cases hxa : x' = a
              · rw [if_pos ⟨hy, by rw [hxa]; exact List.mem_cons_self a L⟩,
                  hy, hxa, hg1, setCell_self]
              · rw [if_neg (fun hc => by
                    rcases List.mem_cons.mp hc.2 with h1 | h1
                    · exact hxa h1
                    · exact hm h1), hg1]
                exact setCell_ne g y a _ y' x' (fun hc => hxa hc.2)
          · rw [if_neg (fun hc => hy hc.1), if_neg (fun hc => hy hc.1), hg1]
            exact setCell_ne g y a _ y' x' (fun hc => hy hc.1)

theorem mem_xOrd (clock : Bool) (x : Nat) : x ∈ xOrd clock ↔ x < GRID_WIDTH := by
  cases clock <;> simp [xOrd]

/-- A whole row of quiet cells: the scan stamps touched = clock on the
in-bounds cells of that row and changes nothing else. -/
theorem scanRow_quiet (clock : Bool) (y : Nat) (g : Grid) (r : Rng)
    (h : ∀ x, x < GRID_WIDTH → quietP clock (g y x)) :
    scanRow clock y (g, r) =
      (fun y' x' => if y' = y ∧ x' < GRID_WIDTH then ⟨(g y x').kind, clock⟩ else g y' x', r) := by
  unfold scanRow
  rw [foldQuiet clock y (xOrd clock) g r (fun x hx => h x ((mem_xOrd clock x).mp hx))]
  refine Prod.ext ?_ rfl
  funext y' x'
  simp only [mem_xOrd]

/-- The grid after the touched toggle of one processed cell. -/
def toggleCell (g : Grid) (y x : Nat) (clock : Bool) : Grid :=
  setCell g y x ⟨(g y x).kind, clock⟩

theorem toggleCell_self (g : Grid) (y x : Nat) (c : Bool) :
    toggleCell g y x c y x = ⟨(g y x).kind, c⟩ := setCell_self g y x _

theorem toggleCell_ne (g : Grid) (y x : Nat) (c : Bool) (y' x' : Nat)
    (h : ¬(y' = y ∧ x' = x)) : toggleCell g y x c y' x' = g y' x' :=
  setCell_ne g y x _ y' x' h

theorem toggleCell_kind (g : Grid) (y x : Nat) (c : Bool) (y' x' : Nat) :
    (toggleCell g y x c y' x').kind = (g y' x').kind :=
  setCell_kind_eq g y x c y' x'

theorem wN1_mem (r : Rng) : 1 ≤ wN1 r ∧ wN1 r < 3 := by
  unfold wN1 waterDraws Rng.genRange
  simp only []
  omega

theorem wN5_mem (r : Rng) : 2 ≤ wN5 r ∧ wN5 r < 5 := by
  unfold wN5 waterDraws Rng.genRange Rng.genBool
  simp only []
  omega

theorem empty_iff (p : Particle) : p.empty = true ↔ p.kind = Kind.Empty := by
  simp [Particle.empty]

/-- When the cell is processed (not skipped), the step is the toggle
followed by the arm selected by the cell kind. -/
theorem stepCell_go (clock : Bool) (g : Grid) (r : Rng) (y x : Nat)
    (ht : (g y x).touched ≠ clock) :
    stepCell clock g r y x =
      match (g y x).kind with
      | Kind.Empty => (toggleCell g y x clock, r)
      | Kind.Stone => (toggleCell g y x clock, r)
      | Kind.Sand => sandStep (toggleCell g y x clock) r y x
      | Kind.Gravel => gravelStep (toggleCell g y x clock) r y x
      | Kind.Water => waterStep (toggleCell g y x clock) r y x := by
  have hb : ((g y x).touched == clock) = false := by simpa using ht
  have hn : (!(g y x).touched) = clock := bool_ne_eq_not ht
  unfold stepCell toggleCell
  rw [hb, hn]
  rfl

theorem boolToInt_cases (b : Bool) : boolToInt b = 0 ∨ boolToInt b = 1 := by
  cases b <;> simp [boolToInt]

theorem kind_enum (k : Kind) : k = Kind.Empty ∨ k = Kind.Sand ∨ k = Kind.Gravel ∨
    k = Kind.Water ∨ k = Kind.Stone := by
  cases k <;> simp

/-- Complete branch enumeration of one scan step at an in-bounds cell:
either the cell is skipped, or it is toggled and then stays, swaps with
an Empty-or-Water cell of the row below (Sand and Gravel), or performs
a Water copy-and-clear move to an Empty destination that is either
straight or diagonal in the row below, or lateral in its own row. -/
theorem stepCell_shape (clock : Bool) (g : Grid) (r : Rng) (y x : Nat)
    (hy : y < GRID_HEIGHT) (hx : x < GRID_WIDTH) :
    ((g y x).touched = clock ∧ stepCell clock g r y x = (g, r)) ∨
    ((g y x).touched ≠ clock ∧
      ((stepCell clock g r y x).1 = toggleCell g y x clock ∨
       (∃ x2, ((g y x).kind = Kind.Sand ∨ (g y x).kind = Kind.Gravel) ∧
         y + 1 < GRID_HEIGHT ∧ x2 < GRID_WIDTH ∧
         ((toggleCell g y x clock (y + 1) x2).kind = Kind.Empty ∨
          (toggleCell g y x clock (y + 1) x2).kind = Kind.Water) ∧
         (stepCell clock g r y x).1 = swapCells (toggleCell g y x clock) y x (y + 1) x2) ∨
       (∃ yd xd, (g y x).kind = Kind.Water ∧
         ((yd = y + 1 ∧ y + 1 < GRID_HEIGHT) ∨ yd = y) ∧ xd < GRID_WIDTH ∧
         ¬(yd = y ∧ xd = x) ∧
         (toggleCell g y x clock yd xd).kind = Kind.Empty ∧
         (stepCell clock g r y x).1 =
           setCell (setCell (toggleCell g y x clock) yd xd (toggleCell g y x clock y x))
             y x Particle.default))) := by
  have hH2 : GRID_HEIGHT = 240 := rfl
  have hW2 : GRID_WIDTH = 320 := rfl
  by_cases ht : (g y x).touched = clock
  · exact Or.inl ⟨ht, stepCell_skip clock g r y x ht⟩
  · refine Or.inr ⟨ht, ?_⟩
    rcases kind_enum ((g y x).kind) with hk | hk | hk | hk | hk
    · -- Empty
      have hstep : stepCell clock g r y x = (toggleCell g y x clock, r) := by
        rw [stepCell_go clock g r y x ht, hk]
      exact Or.inl (by rw [hstep])
    · -- Sand
      have hstep : stepCell clock g r y x = sandStep (toggleCell g y x clock) r y x := by
        rw [stepCell_go clock g r y x ht, hk]
      by_cases hdown : y < GRID_HEIGHT - 1
      · by_cases hc1 : ((toggleCell g y x clock (y + 1) x).empty ||
            ((toggleCell g y x clock (y + 1) x).kind == Kind.Water)) = true
        · have harm : sandStep (toggleCell g y x clock) r y x =
              (swapCells (toggleCell g y x clock) y x (y + 1) x, r) := by
            unfold sandStep
            rw [if_pos hdown, if_pos hc1]
          refine Or.inr (Or.inl ⟨x, Or.inl hk, by omega, hx, ?_, by rw [hstep, harm]⟩)
          rcases Bool.or_eq_true_iff.mp hc1 with h | h
          · exact Or.inl ((empty_iff _).mp h)
          · exact Or.inr (by simpa using h)
        · by_cases hbd : 0 ≤ sandNewX r x ∧ sandNewX r x < (GRID_WIDTH : Int)
          · by_cases hc2 : ((toggleCell g y x clock (y + 1) (sandNewX r x).toNat).empty ||
                ((toggleCell g y x clock (y + 1) (sandNewX r x).toNat).kind == Kind.Water)) = true
            · have harm : sandStep (toggleCell g y x clock) r y x =
                  (swapCells (toggleCell g y x clock) y x (y + 1) (sandNewX r x).toNat,
                    (r.genBool).2) := by
                unfold sandStep
                rw [if_pos hdown, if_neg hc1, if_pos hbd, if_pos hc2]
              refine Or.inr (Or.inl ⟨(sandNewX r x).toNat, Or.inl hk, by omega, ?_, ?_,
                by rw [hstep, harm]⟩)
              · have h1 := hbd.1
                have h2 := hbd.2
                omega
              · rcases Bool.or_eq_true_iff.mp hc2 with h | h
                · exact Or.inl ((empty_iff _).mp h)
                · exact Or.inr (by simpa using h)
            · have harm : sandStep (toggleCell g y x clock) r y x =
                  (toggleCell g y x clock, (r.genBool).2) := by
                unfold sandStep
                rw [if_pos hdown, if_neg hc1, if_pos hbd, if_neg hc2]
              exact Or.inl (by rw [hstep, harm])
          · have harm : sandStep (toggleCell g y x clock) r y x =
                (toggleCell g y x clock, (r.genBool).2) := by
              unfold sandStep
              rw [if_pos hdown, if_neg hc1, if_neg hbd]
            exact Or.inl (by rw [hstep, harm])
      · have harm : sandStep (toggleCell g y x clock) r y x = (toggleCell g y x clock, r) := by
          unfold sandStep
          rw [if_neg hdown]
        exact Or.inl (by rw [hstep, harm])
    · -- Gravel
      have hstep : stepCell clock g r y x = gravelStep (toggleCell g y x clock) r y x := by
        rw [stepCell_go clock g r y x ht, hk]
      by_cases hdown : y < GRID_HEIGHT - 1
      · by_cases hc1 : ((toggleCell g y x clock (y + 1) x).empty ||
            ((toggleCell g y x clock (y + 1) x).kind == Kind.Water)) = true
        · have harm : gravelStep (toggleCell g y x clock) r y x =
              (swapCells (toggleCell g y x clock) y x (y + 1) x, r) := by
            unfold gravelStep
            rw [if_pos hdown, if_pos hc1]
          refine Or.inr (Or.inl ⟨x, Or.inr hk, by omega, hx, ?_, by rw [hstep, harm]⟩)
          rcases Bool.or_eq_true_iff.mp hc1 with h | h
          · exact Or.inl ((empty_iff _).mp h)
          · exact Or.inr (by simpa using h)
        · have harm : gravelStep (toggleCell g y x clock) r y x =
              (toggleCell g y x clock, r) := by
            unfold gravelStep
            rw [if_pos hdown, if_neg hc1]
          exact Or.inl (by rw [hstep, harm])
      · have harm : gravelStep (toggleCell g y x clock) r y x = (toggleCell g y x clock, r) := by
          unfold gravelStep
          rw [if_neg hdown]
        exact Or.inl (by rw [hstep, harm])
    · -- Water
      have hstep : stepCell clock g r y x = waterStep (toggleCell g y x clock) r y x := by
        rw [stepCell_go clock g r y x ht, hk]
      by_cases hD : y < GRID_HEIGHT - 1 ∧ (toggleCell g y x clock (y + 1) x).empty = true
      · have harm : waterStep (toggleCell g y x clock) r y x =
            (setCell (setCell (toggleCell g y x clock) (y + 1) x (toggleCell g y x clock y x))
              y x Particle.default, r) := by
          unfold waterStep
          rw [if_pos hD]
        refine Or.inr (Or.inr ⟨y + 1, x, hk, Or.inl ⟨rfl, by omega⟩, hx, by omega,
          (empty_iff _).mp hD.2, by rw [hstep, harm]⟩)
      · by_cases hA : y < GRID_HEIGHT - 1 ∧
            (0 ≤ waterNewX1 r x ∧ waterNewX1 r x < (GRID_WIDTH : Int)) ∧
            (toggleCell g y x clock (y + 1) (waterNewX1 r x).toNat).empty = true ∧
            (toggleCell g y x clock (y + 1) (waterCheckX1 r x).toNat).kind = Kind.Water
        · have harm : waterStep (toggleCell g y x clock) r y x =
              (setCell (setCell (toggleCell g y x clock) (y + 1) (waterNewX1 r x).toNat
                (toggleCell g y x clock y x)) y x Particle.default, wRest r) := by
            unfold waterStep
            rw [if_neg hD, if_pos hA]
          refine Or.inr (Or.inr ⟨y + 1, (waterNewX1 r x).toNat, hk, Or.inl ⟨rfl, by omega⟩,
            ?_, by omega, (empty_iff _).mp hA.2.2.1, by rw [hstep, harm]⟩)
          have h1 := hA.2.1.1
          have h2 := hA.2.1.2
          omega
        · by_cases hB : (0 ≤ waterNewX4 r x ∧ waterNewX4 r x < (GRID_WIDTH : Int)) ∧
              (toggleCell g y x clock y (waterNewX4 r x).toNat).empty = true
          · have harm : waterStep (toggleCell g y x clock) r y x =
                (setCell (setCell (toggleCell g y x clock) y (waterNewX4 r x).toNat
                  (toggleCell g y x clock y x)) y x Particle.default, wRest r) := by
              unfold waterStep
              rw [if_neg hD, if_neg hA, if_pos hB]
            have hdef : waterNewX4 r x = (x : Int) - (boolToInt (wSb4 r) * 2 - 1) := rfl
            have hne : (waterNewX4 r x).toNat ≠ x := by
              have h1 := hB.1.1
              have h2 := hB.1.2
              rcases boolToInt_cases (wSb4 r) with h | h <;> rw [h] at hdef <;> omega
            refine Or.inr (Or.inr ⟨y, (waterNewX4 r x).toNat, hk, Or.inr rfl, ?_,
              fun hc => hne hc.2, (empty_iff _).mp hB.2, by rw [hstep, harm]⟩)
            have h1 := hB.1.1
            have h2 := hB.1.2
            omega
          · by_cases hC : y < GRID_HEIGHT - 1 ∧
                (0 ≤ waterNewX5 r x ∧ waterNewX5 r x < (GRID_WIDTH : Int)) ∧
                (toggleCell g y x clock y (waterNewX5 r x).toNat).empty = true ∧
                (toggleCell g y x clock (y + 1) (waterCheckX5 r x).toNat).kind = Kind.Water
            · have harm : waterStep (toggleCell g y x clock) r y x =
                  (setCell (setCell (toggleCell g y x clock) y (waterNewX5 r x).toNat
                    (toggleCell g y x clock y x)) y x Particle.default, wRest r) := by
                unfold waterStep
                rw [if_neg hD, if_neg hA, if_neg hB, if_pos hC]
              have hdef : waterNewX5 r x =
                  (x : Int) + (wN5 r : Int) * (boolToInt (wSb5 r) * 2 - 1) := rfl
              have hn5 := wN5_mem r
              have hne : (waterNewX5 r x).toNat ≠ x := by
                have h1 := hC.2.1.1
                have h2 := hC.2.1.2
                rcases boolToInt_cases (wSb5 r) with h | h <;> rw [h] at hdef <;> omega
              refine Or.inr (Or.inr ⟨y, (waterNewX5 r x).toNat, hk, Or.inr rfl, ?_,
                fun hc => hne hc.2, (empty_iff _).mp hC.2.2.1, by rw [hstep, harm]⟩)
              have h1 := hC.2.1.1
              have h2 := hC.2.1.2
              omega
            · have harm : waterStep (toggleCell g y x clock) r y x =
                  (toggleCell g y x clock, wRest r) := by
                unfold waterStep
                rw [if_neg hD, if_neg hA, if_neg hB, if_neg hC]
              exact Or.inl (by rw [hstep, harm])
    · -- Stone
      have hstep : stepCell clock g r y x = (toggleCell g y x clock, r) := by
        rw [stepCell_go clock g r y x ht, hk]
      exact Or.inl (by rw [hstep])

/-! Mass accounting: the non-Empty cell count through one step. -/

theorem countNonEmpty_setCell (g : Grid) (y x : Nat) (p : Particle)
    (hy : y < GRID_HEIGHT) (hx : x < GRID_WIDTH) :
    countNonEmpty (setCell g y x p) + cellMass (g y x) = countNonEmpty g + cellMass p := by
  unfold countNonEmpty
  have hyy : y ∈ Finset.range GRID_HEIGHT := Finset.mem_range.mpr hy
  have hxx : x ∈ Finset.range GRID_WIDTH := Finset.mem_range.mpr hx
  rw [← Finset.sum_erase_add (Finset.range GRID_HEIGHT)
      (fun y' => ∑ x' ∈ Finset.range GRID_WIDTH, cellMass (setCell g y x p y' x')) hyy,
    ← Finset.sum_erase_add (Finset.range GRID_HEIGHT)
      (fun y' => ∑ x' ∈ Finset.range GRID_WIDTH, cellMass (g y' x')) hyy,
    ← Finset.sum_erase_add (Finset.range GRID_WIDTH)
      (fun x' => cellMass (setCell g y x p y x')) hxx,
    ← Finset.sum_erase_add (Finset.range GRID_WIDTH)
      (fun x' => cellMass (g y x')) hxx, setCell_self]
  have e1 : (∑ y' ∈ (Finset.range GRID_HEIGHT).erase y,
      ∑ x' ∈ Finset.range GRID_WIDTH, cellMass (setCell g y x p y' x')) =
      ∑ y' ∈ (Finset.range GRID_HEIGHT).erase y,
      ∑ x' ∈ Finset.range GRID_WIDTH, cellMass (g y' x') := by
    apply Finset.sum_congr rfl
    intro y' hy'
    apply Finset.sum_congr rfl
    intro x' _
    rw [setCell_ne g y x p y' x' (fun hc => Finset.ne_of_mem_erase hy' hc.1)]
  have e2 : (∑ x' ∈ (Finset.range GRID_WIDTH).erase x, cellMass (setCell g y x p y x')) =
      ∑ x' ∈ (Finset.range GRID_WIDTH).erase x, cellMass (g y x') := by
    apply Finset.sum_congr rfl
    intro x' hx'
    rw [setCell_ne g y x p y x' (fun hc => Finset.ne_of_mem_erase hx' hc.2)]
  rw [e1, e2]
  omega

theorem countNonEmpty_toggle (g : Grid) (y x : Nat) (clock : Bool)
    (hy : y < GRID_HEIGHT) (hx : x < GRID_WIDTH) :
    countNonEmpty (toggleCell g y x clock) = countNonEmpty g := by
  have h := countNonEmpty_setCell g y x ⟨(g y x).kind, clock⟩ hy hx
  have hm : cellMass ⟨(g y x).kind, clock⟩ = cellMass (g y x) := rfl
  unfold toggleCell
  omega

theorem countNonEmpty_swap (g : Grid) (y1 x1 y2 x2 : Nat)
    (h1y : y1 < GRID_HEIGHT) (h1x : x1 < GRID_WIDTH)
    (h2y : y2 < GRID_HEIGHT) (h2x : x2 < GRID_WIDTH)
    (hne : ¬(y2 = y1 ∧ x2 = x1)) :
    countNonEmpty (swapCells g y1 x1 y2 x2) = countNonEmpty g := by
  unfold swapCells
  have ha := countNonEmpty_setCell g y1 x1 (g y2 x2) h1y h1x
  have hg1 : setCell g y1 x1 (g y2 x2) y2 x2 = g y2 x2 :=
    setCell_ne g y1 x1 _ y2 x2 hne
  have hb := countNonEmpty_setCell (setCell g y1 x1 (g y2 x2)) y2 x2 (g y1 x1) h2y h2x
  rw [hg1] at hb
  omega

theorem countNonEmpty_waterMove (g : Grid) (ys xs yd xd : Nat)
    (hsy : ys < GRID_HEIGHT) (hsx : xs < GRID_WIDTH)
    (hdy : yd < GRID_HEIGHT) (hdx : xd < GRID_WIDTH)
    (hne : ¬(yd = ys ∧ xd = xs)) (hempty : (g yd xd).kind = Kind.Empty) :
    countNonEmpty (setCell (setCell g yd xd (g ys xs)) ys xs Particle.default) =
      countNonEmpty g := by
  have ha := countNonEmpty_setCell g yd xd (g ys xs) hdy hdx
  have hg1 : setCell g yd xd (g ys xs) ys xs = g ys xs :=
    setCell_ne g yd xd _ ys xs (fun hc => hne ⟨hc.1.symm, hc.2.symm⟩)
  have hb := countNonEmpty_setCell (setCell g yd xd (g ys xs)) ys xs Particle.default hsy hsx
  rw [hg1] at hb
  have hde : cellMass (g yd xd) = 0 := by simp [cellMass, hempty]
  have hdd : cellMass Particle.default = 0 := rfl
  omega

theorem stepCell_mass (clock : Bool) (g : Grid) (r : Rng) (y x : Nat)
    (hy : y < GRID_HEIGHT) (hx : x < GRID_WIDTH) :
    countNonEmpty ((stepCell clock g r y x).1) = countNonEmpty g := by
  rcases stepCell_shape clock g r y x hy hx with ⟨_, hstep⟩ | ⟨_, hcase⟩
  · rw [hstep]
  · rcases hcase with hA | ⟨x2, _, hy2, hx2, _, heq⟩ | ⟨yd, xd, _, hyd, hxd, hne, hempty, heq⟩
    · rw [hA]
      exact countNonEmpty_toggle g y x clock hy hx
    · rw [heq, countNonEmpty_swap _ y x (y + 1) x2 hy hx hy2 hx2 (fun hc => by omega)]
      exact countNonEmpty_toggle g y x clock hy hx
    · have hydH : yd < GRID_HEIGHT := by
        rcases hyd with ⟨h1, h2⟩ | h1 <;> omega
      rw [heq, countNonEmpty_waterMove (toggleCell g y x clock) y x yd xd hy hx hydH hxd
        hne hempty]
      exact countNonEmpty_toggle g y x clock hy hx

theorem foldRow_mass (clock : Bool) (y : Nat) (hy : y < GRID_HEIGHT) :
    ∀ (L : List Nat), (∀ x ∈ L, x < GRID_WIDTH) → ∀ (g : Grid) (r : Rng),
      countNonEmpty ((L.foldl (fun gr x => stepCell clock gr.1 gr.2 y x) (g, r)).1) =
        countNonEmpty g := by
  intro L
  induction L with
  | nil =>
    intro _ g r
    rfl
  | cons a L ih =>
    intro hmem g r
    rw [List.foldl_cons]
    calc countNonEmpty ((L.foldl (fun gr x => stepCell clock gr.1 gr.2 y x)
            (stepCell clock g r y a)).1)
        = countNonEmpty ((L.foldl (fun gr x => stepCell clock gr.1 gr.2 y x)
            ((stepCell clock g r y a).1, (stepCell clock g r y a).2)).1) := rfl
      _ = countNonEmpty ((stepCell clock g r y a).1) :=
          ih (fun x hx => hmem x (List.mem_cons_of_mem a hx))
            (stepCell clock g r y a).1 (stepCell clock g r y a).2
      _ = countNonEmpty g :=
          stepCell_mass clock g r y a hy (hmem a (List.mem_cons_self a L))

theorem mem_yOrd (y : Nat) : y ∈ yOrd ↔ y < GRID_HEIGHT := by
  simp [yOrd]

theorem foldRows_mass (clock : Bool) :
    ∀ (R : List Nat), (∀ y ∈ R, y < GRID_HEIGHT) → ∀ (g : Grid) (r : Rng),
      countNonEmpty ((R.foldl (fun gr y => scanRow clock y gr) (g, r)).1) =
        countNonEmpty g := by
  intro R
  induction R with
  | nil =>
    intro _ g r
    rfl
  | cons a R ih =>
    intro hmem g r
    rw [List.foldl_cons]
    have hya : a < GRID_HEIGHT := hmem a (List.mem_cons_self a R)
    calc countNonEmpty ((R.foldl (fun gr y => scanRow clock y gr) (scanRow clock a (g, r))).1)
        = countNonEmpty ((R.foldl (fun gr y => scanRow clock y gr)
            ((scanRow clock a (g, r)).1, (scanRow clock a (g, r)).2)).1) := rfl
      _ = countNonEmpty ((scanRow clock a (g, r)).1) :=
          ih (fun y hy => hmem y (List.mem_cons_of_mem a hy))
            (scanRow clock a (g, r)).1 (scanRow clock a (g, r)).2
      _ = countNonEmpty g :=
          foldRow_mass clock a hya (xOrd clock)
            (fun x hx => (mem_xOrd clock x).mp hx) g r

theorem update_particles (w : World) (r : Rng) :
    (World.update w r).1.particles =
      (yOrd.foldl (fun gr y => scanRow (!w.clock) y gr) (w.particles, r)).1 := rfl

theorem update_clock (w : World) (r : Rng) : (World.update w r).1.clock = !w.clock := rfl

/-- C1.  Mass conservation: for every grid state and every sequence of
random draws, the number of non-Empty cells after one World::update
equals the number before it; the update engine never changes the count
(so among the grid mutators only set_pixel can). -/
theorem C1_mass_conservation (w : World) (r : Rng) :
    countNonEmpty ((World.update w r).1.particles) = countNonEmpty w.particles := by
  rw [update_particles]
  exact foldRows_mass (!w.clock) yOrd (fun y hy => (mem_yOrd y).mp hy) w.particles r

/-! Pointwise evaluation of the two move shapes. -/

theorem swap_at_dest (g : Grid) (y1 x1 y2 x2 : Nat) :
    swapCells g y1 x1 y2 x2 y2 x2 = g y1 x1 := setCell_self _ y2 x2 _

theorem swap_at_src (g : Grid) (y1 x1 y2 x2 : Nat) (hne : ¬(y1 = y2 ∧ x1 = x2)) :
    swapCells g y1 x1 y2 x2 y1 x1 = g y2 x2 := by
  unfold swapCells
  rw [setCell_ne _ y2 x2 _ y1 x1 hne, setCell_self]

theorem swap_at_other (g : Grid) (y1 x1 y2 x2 y' x' : Nat)
    (h1 : ¬(y' = y1 ∧ x' = x1)) (h2 : ¬(y' = y2 ∧ x' = x2)) :
    swapCells g y1 x1 y2 x2 y' x' = g y' x' := by
  unfold swapCells
  rw [setCell_ne _ y2 x2 _ y' x' h2, setCell_ne _ y1 x1 _ y' x' h1]

theorem wmove_at_src (g : Grid) (ys xs yd xd : Nat) :
    setCell (setCell g yd xd (g ys xs)) ys xs Particle.default ys xs = Particle.default :=
  setCell_self _ ys xs _

theorem wmove_at_dest (g : Grid) (ys xs yd xd : Nat) (hne : ¬(yd = ys ∧ xd = xs)) :
    setCell (setCell g yd xd (g ys xs)) ys xs Particle.default yd xd = g ys xs := by
  rw [setCell_ne _ ys xs _ yd xd hne, setCell_self]

theorem wmove_at_other (g : Grid) (ys xs yd xd y' x' : Nat)
    (h1 : ¬(y' = ys ∧ x' = xs)) (h2 : ¬(y' = yd ∧ x' = xd)) :
    setCell (setCell g yd xd (g ys xs)) ys xs Particle.default y' x' = g y' x' := by
  rw [setCell_ne _ ys xs _ y' x' h1, setCell_ne _ yd xd _ y' x' h2]

/-! Stone cells are never moved and never moved onto. -/

theorem stepCell_stone (clock : Bool) (g : Grid) (r : Rng) (y x y0 x0 : Nat)
    (hy : y < GRID_HEIGHT) (hx : x < GRID_WIDTH) :
    (((stepCell clock g r y x).1 y0 x0).kind = Kind.Stone ↔ (g y0 x0).kind = Kind.Stone) := by
  rcases stepCell_shape clock g r y x hy hx with ⟨_, hstep⟩ | ⟨_, hcase⟩
  · rw [hstep]
  · rcases hcase with hA | ⟨x2, hsk, hy2, hx2, hdk, heq⟩ |
      ⟨yd, xd, hwk, hyd, hxd, hne, hempty, heq⟩
    · rw [hA, toggleCell_kind]
    · -- Sand or Gravel swap with (y+1, x2)
      have hLne : (g y x).kind ≠ Kind.Stone := by
        rcases hsk with h | h <;> simp [h]
      have hdk' : (g (y + 1) x2).kind = Kind.Empty ∨ (g (y + 1) x2).kind = Kind.Water := by
        rcases hdk with h | h <;> rw [toggleCell_kind] at h
        · exact Or.inl h
        · exact Or.inr h
      have hRne : (g (y + 1) x2).kind ≠ Kind.Stone := by
        rcases hdk' with h | h <;> simp [h]
      rw [heq]
      by_cases hd : y0 = y + 1 ∧ x0 = x2
      · rw [hd.1, hd.2, swap_at_dest, toggleCell_self]
        exact iff_of_false hLne (by rw [← hd.1, ← hd.2] at hRne ⊢; exact hRne)
      · by_cases hs : y0 = y ∧ x0 = x
        · rw [hs.1, hs.2, swap_at_src _ _ _ _ _ (fun hc => by omega), toggleCell_kind]
          exact iff_of_false hRne (by rw [← hs.1, ← hs.2] at hLne ⊢; exact hLne)
        · rw [swap_at_other _ y x (y + 1) x2 y0 x0 hs hd, toggleCell_kind]
    · -- Water copy-and-clear move to (yd, xd)
      have hLne : (g y x).kind ≠ Kind.Stone := by simp [hwk]
      have hRne : (g yd xd).kind ≠ Kind.Stone := by
        rw [toggleCell_kind] at hempty
        simp [hempty]
      rw [heq]
      by_cases hs : y0 = y ∧ x0 = x
      · rw [hs.1, hs.2, wmove_at_src]
        exact iff_of_false (by simp [Particle.default])
          (by rw [← hs.1, ← hs.2] at hLne ⊢; exact hLne)
      · by_cases hd : y0 = yd ∧ x0 = xd
        · rw [hd.1, hd.2, wmove_at_dest _ y x yd xd hne, toggleCell_self]
          exact iff_of_false hLne (by rw [← hd.1, ← hd.2] at hRne ⊢; exact hRne)
        · rw [wmove_at_other _ y x yd xd y0 x0 hs hd, toggleCell_kind]

theorem foldRow_stone (clock : Bool) (y y0 x0 : Nat) (hy : y < GRID_HEIGHT) :
    ∀ (L : List Nat), (∀ x ∈ L, x < GRID_WIDTH) → ∀ (g : Grid) (r : Rng),
      (((L.foldl (fun gr x => stepCell clock gr.1 gr.2 y x) (g, r)).1 y0 x0).kind = Kind.Stone ↔
        (g y0 x0).kind = Kind.Stone) := by
  intro L
  induction L with
  | nil =>
    intro _ g r
    exact Iff.rfl
  | cons a L ih =>
    intro hmem g r
    rw [List.foldl_cons]
    exact Iff.trans
      (ih (fun x hx => hmem x (List.mem_cons_of_mem a hx))
        (stepCell clock g r y a).1 (stepCell clock g r y a).2)
      (stepCell_stone clock g r y a y0 x0 hy (hmem a (List.mem_cons_self a L)))

theorem foldRows_stone (clock : Bool) (y0 x0 : Nat) :
    ∀ (R : List Nat), (∀ y ∈ R, y < GRID_HEIGHT) → ∀ (g : Grid) (r : Rng),
      (((R.foldl (fun gr y => scanRow clock y gr) (g, r)).1 y0 x0).kind = Kind.Stone ↔
        (g y0 x0).kind = Kind.Stone) := by
  intro R
  induction R with
  | nil =>
    intro _ g r
    exact Iff.rfl
  | cons a R ih =>
    intro hmem g r
    rw [List.foldl_cons]
    exact Iff.trans
      (ih (fun y hy => hmem y (List.mem_cons_of_mem a hy))
        (scanRow clock a (g, r)).1 (scanRow clock a (g, r)).2)
      (foldRow_stone clock a y0 x0 (hmem a (List.mem_cons_self a R)) (xOrd clock)
        (fun x hx => (mem_xOrd clock x).mp hx) g r)

/-- C8.  Stone immobility: across one World::update, with any sequence of
random draws, a cell holds Stone afterwards exactly when it held Stone
before: Stone never moves itself, and no movement rule ever writes into
a Stone cell (all move destinations must be Empty or Water). -/
theorem C8_stone_immobile (w : World) (r : Rng) (y x : Nat) :
    (((World.update w r).1.particles y x).kind = Kind.Stone ↔
      (w.particles y x).kind = Kind.Stone) := by
  rw [update_particles]
  exact foldRows_stone (!w.clock) y x yOrd (fun y hy => (mem_yOrd y).mp hy) w.particles r

/-! Visited-parity accounting.  After its scan step a cell carries the
new parity, except that a cell vacated by a Water move is reset to the
default particle (touched = false). -/

def parityQ (clock : Bool) (g : Grid) (y x : Nat) : Prop :=
  (g y x).touched = clock ∨ g y x = Particle.default

theorem stepQ_pres (clock : Bool) (g : Grid) (r : Rng) (y x y0 x0 : Nat)
    (hy : y < GRID_HEIGHT) (hx : x < GRID_WIDTH)
    (hq : parityQ clock g y0 x0) : parityQ clock ((stepCell clock g r y x).1) y0 x0 := by
  unfold parityQ at hq ⊢
  rcases stepCell_shape clock g r y x hy hx with ⟨_, hstep⟩ | ⟨ht, hcase⟩
  · rw [hstep]
    exact hq
  · rcases hcase with hA | ⟨x2, hsk, hy2, hx2, hdk, heq⟩ |
      ⟨yd, xd, hwk, hyd, hxd, hne, hempty, heq⟩
    · rw [hA]
      by_cases hc : y0 = y ∧ x0 = x
      · rw [hc.1, hc.2, toggleCell_self]
        exact Or.inl rfl
      · rw [toggleCell_ne g y x clock y0 x0 hc]
        exact hq
    · rw [heq]
      by_cases hd : y0 = y + 1 ∧ x0 = x2
      · rw [hd.1, hd.2, swap_at_dest, toggleCell_self]
        exact Or.inl rfl
      · by_cases hs : y0 = y ∧ x0 = x
        · exfalso
          rcases hq with h | h
          · rw [hs.1, hs.2] at h
            exact ht h
          · rw [hs.1, hs.2] at h
            rcases hsk with hk | hk <;> rw [h] at hk <;> simp [Particle.default] at hk
        · rw [swap_at_other _ y x (y + 1) x2 y0 x0 hs hd, toggleCell_ne g y x clock y0 x0 hs]
          exact hq
    · rw [heq]
      by_cases hs : y0 = y ∧ x0 = x
      · rw [hs.1, hs.2, wmove_at_src]
        exact Or.inr rfl
      · by_cases hd : y0 = yd ∧ x0 = xd
        · rw [hd.1, hd.2, wmove_at_dest _ y x yd xd hne, toggleCell_self]
          exact Or.inl rfl
        · rw [wmove_at_other _ y x yd xd y0 x0 hs hd, toggleCell_ne g y x clock y0 x0 hs]
          exact hq

theorem stepQ_est (clock : Bool) (g : Grid) (r : Rng) (y x : Nat)
    (hy : y < GRID_HEIGHT) (hx : x < GRID_WIDTH)
    (hb : ∀ x2, x2 < GRID_WIDTH → y + 1 < GRID_HEIGHT → parityQ clock g (y + 1) x2) :
    parityQ clock ((stepCell clock g r y x).1) y x := by
  unfold parityQ
  rcases stepCell_shape clock g r y x hy hx with ⟨hsk, hstep⟩ | ⟨ht, hcase⟩
  · rw [hstep]
    exact Or.inl hsk
  · rcases hcase with hA | ⟨x2, hsk, hy2, hx2, hdk, heq⟩ |
      ⟨yd, xd, hwk, hyd, hxd, hne, hempty, heq⟩
    · rw [hA, toggleCell_self]
      exact Or.inl rfl
    · rw [heq, swap_at_src _ y x (y + 1) x2 (fun hc => by omega)]
      have := hb x2 hx2 hy2
      rw [toggleCell_ne g y x clock (y + 1) x2 (fun hc => by omega)]
      exact this
    · rw [heq, wmove_at_src]
      exact Or.inr rfl

theorem foldRow_parity (clock : Bool) (y : Nat) (hy : y < GRID_HEIGHT) :
    ∀ (L : List Nat), (∀ x ∈ L, x < GRID_WIDTH) → ∀ (g : Grid) (r : Rng),
      (∀ x2, x2 < GRID_WIDTH → y + 1 < GRID_HEIGHT → parityQ clock g (y + 1) x2) →
      (∀ y0 x0, parityQ clock g y0 x0 →
        parityQ clock ((L.foldl (fun gr x => stepCell clock gr.1 gr.2 y x) (g, r)).1) y0 x0) ∧
      (∀ x ∈ L, parityQ clock
        ((L.foldl (fun gr x => stepCell clock gr.1 gr.2 y x) (g, r)).1) y x) := by
  intro L
  induction L with
  | nil =>
    intro _ g r _
    exact ⟨fun y0 x0 h => h, fun x hx => absurd hx (List.not_mem_nil x)⟩
  | cons a L ih =>
    intro hmem g r hb
    have hxa : a < GRID_WIDTH := hmem a (List.mem_cons_self a L)
    have hb1 : ∀ x2, x2 < GRID_WIDTH → y + 1 < GRID_HEIGHT →
        parityQ clock ((stepCell clock g r y a).1) (y + 1) x2 :=
      fun x2 hx2 hy2 => stepQ_pres clock g r y a (y + 1) x2 hy hxa (hb x2 hx2 hy2)
    obtain ⟨P1, P2⟩ := ih (fun x hx => hmem x (List.mem_cons_of_mem a hx))
      (stepCell clock g r y a).1 (stepCell clock g r y a).2 hb1
    rw [List.foldl_cons]
    have heta : L.foldl (fun gr x => stepCell clock gr.1 gr.2 y x) (stepCell clock g r y a) =
        L.foldl (fun gr x => stepCell clock gr.1 gr.2 y x)
          ((stepCell clock g r y a).1, (stepCell clock g r y a).2) := rfl
    rw [heta]
    constructor
    · intro y0 x0 hq
      exact P1 y0 x0 (stepQ_pres clock g r y a y0 x0 hy hxa hq)
    · intro x hx
      rcases List.mem_cons.mp hx with rfl | hx'
      · exact P1 y x (stepQ_est clock g r y x hy hxa hb)
      · exact P2 x hx'

theorem foldRows_paritySuffix (clock : Bool) :
    ∀ (m k : Nat), k + m = GRID_HEIGHT → ∀ (g : Grid) (r : Rng),
      (∀ y0 x0, parityQ clock g y0 x0 →
        parityQ clock ((((List.range' k m).reverse).foldl
          (fun gr y => scanRow clock y gr) (g, r)).1) y0 x0) ∧
      (∀ y', k ≤ y' → y' < GRID_HEIGHT → ∀ x0, x0 < GRID_WIDTH →
        parityQ clock ((((List.range' k m).reverse).foldl
          (fun gr y => scanRow clock y gr) (g, r)).1) y' x0) := by
  intro m
  induction m with
  | zero =>
    intro k hk g r
    constructor
    · intro y0 x0 h
      exact h
    · intro y' hge hlt x0 _
      omega
  | succ m ih =>
    intro k hk g r
    have hsplit : (List.range' k (m + 1)).reverse = (List.range' (k + 1) m).reverse ++ [k] := by
      rw [List.range'_succ k m 1, List.reverse_cons]
    rw [hsplit, List.foldl_append]
    obtain ⟨P1, P2⟩ := ih (k + 1) (by omega) g r
    have hkH : k < GRID_HEIGHT := by omega
    obtain ⟨R1, R2⟩ := foldRow_parity clock k hkH (xOrd clock)
      (fun x hx => (mem_xOrd clock x).mp hx)
      (((List.range' (k + 1) m).reverse).foldl (fun gr y => scanRow clock y gr) (g, r)).1
      (((List.range' (k + 1) m).reverse).foldl (fun gr y => scanRow clock y gr) (g, r)).2
      (fun x2 hx2 hk2 => P2 (k + 1) (by omega) hk2 x2 hx2)
    constructor
    · intro y0 x0 hq
      exact R1 y0 x0 (P1 y0 x0 hq)
    · intro y' hge hlt x0 hx0
      by_cases hy' : y' = k
      · rw [hy']
        exact R2 x0 ((mem_xOrd clock x0).mpr hx0)
      · exact R1 y' x0 (P2 y' (by omega) hlt x0 hx0)

theorem update_parity (w : World) (r : Rng) (y x : Nat)
    (hy : y < GRID_HEIGHT) (hx : x < GRID_WIDTH) :
    parityQ (!w.clock) ((World.update w r).1.particles) y x := by
  rw [update_particles]
  have hyOrd : yOrd = (List.range' 0 GRID_HEIGHT).reverse := by
    rw [yOrd, List.range_eq_range']
  rw [hyOrd]
  exact (foldRows_paritySuffix (!w.clock) GRID_HEIGHT 0 (by omega) w.particles r).2
    y (Nat.zero_le y) hy x hx

/-- An arbitrary concrete draw stream for witnesses and counterexamples:
every bool draw is false, every range draw takes the low end. -/
def rngFF : Rng := ⟨fun _ => false, fun _ => 0, 0, 0⟩

/-- C2 (amended).  If at the start of a tick every cell's visited marker
equals the old parity, then after one completed World::update every cell
either carries the new parity or is the default cell (Empty, visited =
false) left behind by a Water move; the original claim that every cell
carries the new parity fails exactly on those vacated cells. -/
theorem C2_parity_amended (w : World) (r : Rng)
    (hpar : ∀ y x, y < GRID_HEIGHT → x < GRID_WIDTH →
      (w.particles y x).touched = w.clock)
    (y x : Nat) (hy : y < GRID_HEIGHT) (hx : x < GRID_WIDTH) :
    ((World.update w r).1.particles y x).touched = (World.update w r).1.clock ∨
      (World.update w r).1.particles y x = Particle.default := by
  rw [update_clock]
  exact update_parity w r y x hy hx

/-- Witness for C2: the amended postcondition at a concrete world. -/
theorem C2_parity_amended_witness :
    ((World.update World.new rngFF).1.particles 0 0).touched =
        (World.update World.new rngFF).1.clock ∨
      (World.update World.new rngFF).1.particles 0 0 = Particle.default :=
  C2_parity_amended World.new rngFF (fun _ _ _ _ => rfl) 0 0 (by decide) (by decide)

/-- Folding whole quiet rows: the scan stamps touched = clock on all
in-bounds cells of those rows and changes nothing else. -/
theorem foldRows_quiet (clock : Bool) :
    ∀ (R : List Nat) (g : Grid) (r : Rng),
      (∀ y ∈ R, ∀ x, x < GRID_WIDTH → quietP clock (g y x)) →
      R.foldl (fun gr y => scanRow clock y gr) (g, r) =
        (fun y' x' => if y' ∈ R ∧ x' < GRID_WIDTH then ⟨(g y' x').kind, clock⟩ else g y' x',
          r) := by
  intro R
  induction R with
  | nil =>
    intro g r _
    rw [List.foldl_nil]
    refine Prod.ext ?_ rfl
    funext y' x'
    simp only [List.not_mem_nil, false_and, if_false]
  | cons a R ih =>
    intro g r hq
    rw [List.foldl_cons,
      scanRow_quiet clock a g r (fun x hx => hq a (List.mem_cons_self a R) x hx)]
    set g1 : Grid := fun y' x' =>
      if y' = a ∧ x' < GRID_WIDTH then ⟨(g a x').kind, clock⟩ else g y' x' with hg1
    have hq1 : ∀ y ∈ R, ∀ x, x < GRID_WIDTH → quietP clock (g1 y x) := by
      intro y hy x hx
      rw [hg1]
      by_cases hya : y = a
      · simp only [if_pos (And.intro hya hx)]
        exact Or.inr (Or.inr rfl)
      · simp only [if_neg (fun hc : y = a ∧ x < GRID_WIDTH => hya hc.1)]
        exact hq y (List.mem_cons_of_mem a hy) x hx
    rw [ih g1 r hq1]
    refine Prod.ext ?_ rfl
    funext y' x'
    simp only []
    have hkind : (g1 y' x').kind = (g y' x').kind := by
      rw [hg1]
      by_cases hc : y' = a ∧ x' < GRID_WIDTH
      · simp only [if_pos hc]
        rw [hc.1]
      · simp only [if_neg hc]
    by_cases hxW : x' < GRID_WIDTH
    · by_cases hyR : y' ∈ R
      · rw [if_pos ⟨hyR, hxW⟩, if_pos ⟨List.mem_cons_of_mem a hyR, hxW⟩, hkind]
      · rw [if_neg (fun hc => hyR hc.1)]
        by_cases hya : y' = a
        · rw [if_pos ⟨by rw [hya]; exact List.mem_cons_self a R, hxW⟩, hg1]
          simp only [if_pos (And.intro hya hxW)]
          rw [hya]
        · rw [if_neg (fun hc => by
              rcases List.mem_cons.mp hc.1 with h | h
              · exact hya h
              · exact hyR h), hg1]
          simp only [if_neg (fun hc : y' = a ∧ x' < GRID_WIDTH => hya hc.1)]
    · rw [if_neg (fun hc => hxW hc.2), if_neg (fun hc => hxW hc.2), hg1]
      simp only [if_neg (fun hc : y' = a ∧ x' < GRID_WIDTH => hxW hc.2)]

/-- A world holding a single Water particle at (x, y) = (0, 0); the cell
below it is Empty with visited marker t, every other cell is Empty with
visited marker false; clock is false so the next tick has parity true. -/
def cexGrid (t : Bool) : Grid := fun y x =>
  if y = 0 ∧ x = 0 then ⟨Kind.Water, false⟩
  else if y = 1 ∧ x = 0 then ⟨Kind.Empty, t⟩
  else ⟨Kind.Empty, false⟩

def cexWorld (t : Bool) : World := ⟨cexGrid t, false⟩

/-- One tick of the single-falling-water world: the Water moves straight
down, the destination receives the water particle with the new parity,
and the vacated source cell is reset to the default particle. -/
theorem cex_update (t : Bool) (r : Rng) :
    (World.update (cexWorld t) r).1.particles 0 0 = Particle.default ∧
    (World.update (cexWorld t) r).1.particles 1 0 = ⟨Kind.Water, true⟩ := by
  rw [update_particles (cexWorld t) r,
    show (!(cexWorld t).clock) = true from rfl,
    show (cexWorld t).particles = cexGrid t from rfl]
  have hsplit : yOrd = (List.range' 1 239).reverse ++ [0] := by
    rw [yOrd, show GRID_HEIGHT = 240 from rfl, List.range_eq_range',
      List.range'_succ 0 239 1, List.reverse_cons]
  rw [hsplit, List.foldl_append]
  have hq1 : ∀ y ∈ (List.range' 1 239).reverse, ∀ x, x < GRID_WIDTH →
      quietP true (cexGrid t y x) := by
    intro y hy x hx
    rw [List.mem_reverse, List.mem_range'_1] at hy
    unfold cexGrid quietP
    rw [if_neg (fun hc => by omega)]
    by_cases hc2 : y = 1 ∧ x = 0
    · rw [if_pos hc2]
      exact Or.inl rfl
    · rw [if_neg hc2]
      exact Or.inl rfl
  rw [foldRows_quiet true (List.range' 1 239).reverse (cexGrid t) r hq1]
  set g1 : Grid := fun y' x' =>
    if y' ∈ (List.range' 1 239).reverse ∧ x' < GRID_WIDTH then ⟨(cexGrid t y' x').kind, true⟩
    else cexGrid t y' x' with hg1
  have hmem0 : (0 : Nat) ∉ (List.range' 1 239).reverse := by
    rw [List.mem_reverse, List.mem_range'_1]
    omega
  have hmem1 : (1 : Nat) ∈ (List.range' 1 239).reverse := by
    rw [List.mem_reverse, List.mem_range'_1]
    omega
  have hg1_00 : g1 0 0 = ⟨Kind.Water, false⟩ := by
    rw [hg1]
    simp only [if_neg (fun hc : (0:Nat) ∈ (List.range' 1 239).reverse ∧ (0:Nat) < GRID_WIDTH =>
      hmem0 hc.1)]
    rfl
  have hg1_10 : g1 1 0 = ⟨Kind.Empty, true⟩ := by
    rw [hg1]
    simp only [if_pos (And.intro hmem1 (by decide : (0:Nat) < GRID_WIDTH))]
    rfl
  have hg1_0x : ∀ x, 1 ≤ x → g1 0 x = ⟨Kind.Empty, false⟩ := by
    intro x hx
    rw [hg1]
    simp only [if_neg (fun hc : (0:Nat) ∈ (List.range' 1 239).reverse ∧ x < GRID_WIDTH =>
      hmem0 hc.1)]
    unfold cexGrid
    rw [if_neg (fun hc => by omega), if_neg (fun hc => by omega)]
  simp only [List.foldl_cons, List.foldl_nil]
  unfold scanRow
  have hx0 : xOrd true = 0 :: List.range' 1 319 := by
    show List.range GRID_WIDTH = 0 :: List.range' 1 319
    rw [show GRID_WIDTH = 320 from rfl, List.range_eq_range', List.range'_succ 0 319 1]
  rw [hx0]
  simp only [List.foldl_cons]
  have ht00 : (g1 0 0).touched ≠ true := by
    rw [hg1_00]
    simp
  have hk00 : (g1 0 0).kind = Kind.Water := by
    rw [hg1_00]
  have hstep0 : stepCell true g1 r 0 0 = waterStep (toggleCell g1 0 0 true) r 0 0 := by
    rw [stepCell_go true g1 r 0 0 ht00, hk00]
  have hT10 : toggleCell g1 0 0 true 1 0 = ⟨Kind.Empty, true⟩ := by
    rw [toggleCell_ne g1 0 0 true 1 0 (fun hc => by omega), hg1_10]
  have hcond : 0 < GRID_HEIGHT - 1 ∧ (toggleCell g1 0 0 true 1 0).empty = true := by
    refine ⟨by decide, ?_⟩
    rw [hT10]
    rfl
  have hwater : waterStep (toggleCell g1 0 0 true) r 0 0 =
      (setCell (setCell (toggleCell g1 0 0 true) 1 0 (toggleCell g1 0 0 true 0 0))
        0 0 Particle.default, r) := by
    unfold waterStep
    rw [if_pos hcond]
  rw [hstep0, hwater]
  set g2 : Grid := setCell (setCell (toggleCell g1 0 0 true) 1 0 (toggleCell g1 0 0 true 0 0))
    0 0 Particle.default with hg2
  have hg2_00 : g2 0 0 = Particle.default := by
    rw [hg2]
    exact setCell_self _ 0 0 _
  have hg2_10 : g2 1 0 = ⟨Kind.Water, true⟩ := by
    rw [hg2, setCell_ne _ 0 0 _ 1 0 (fun hc => by omega), setCell_self, toggleCell_self, hk00]
  have hq2 : ∀ x ∈ List.range' 1 319, quietP true (g2 0 x) := by
    intro x hx
    rw [List.mem_range'_1] at hx
    have : g2 0 x = ⟨Kind.Empty, false⟩ := by
      rw [hg2, setCell_ne _ 0 0 _ 0 x (fun hc => by omega),
        setCell_ne _ 1 0 _ 0 x (fun hc => by omega),
        toggleCell_ne g1 0 0 true 0 x (fun hc => by omega)]
      exact hg1_0x x (by omega)
    rw [this]
    exact Or.inl rfl
  rw [foldQuiet true 0 (List.range' 1 319) g2 r hq2]
  constructor
  · show (if (0 = 0 ∧ (0:Nat) ∈ List.range' 1 319) then ⟨(g2 0 0).kind, true⟩ else g2 0 0) =
      Particle.default
    rw [if_neg (fun hc => by
      have := hc.2
      rw [List.mem_range'_1] at this
      omega)]
    exact hg2_00
  · show (if ((1:Nat) = 0 ∧ (0:Nat) ∈ List.range' 1 319) then ⟨(g2 1 0).kind, true⟩ else g2 1 0) =
      (⟨Kind.Water, true⟩ : Particle)
    rw [if_neg (fun hc => by omega)]
    exact hg2_10

/-- C2 counterexample: in a world satisfying the start-of-tick parity
hypothesis (all cells carry the old parity false), after one update the
new parity is true yet the cell vacated by the falling Water holds
visited = false, so not every cell carries the new parity. -/
theorem C2_counterexample :
    (∀ y x, y < GRID_HEIGHT → x < GRID_WIDTH →
      ((cexWorld false).particles y x).touched = (cexWorld false).clock) ∧
    (World.update (cexWorld false) rngFF).1.clock = true ∧
    ((World.update (cexWorld false) rngFF).1.particles 0 0).touched = false := by
  refine ⟨?_, by rw [update_clock]; rfl, ?_⟩
  · intro y x _ _
    show (cexGrid false y x).touched = false
    unfold cexGrid
    by_cases h1 : y = 0 ∧ x = 0
    · rw [if_pos h1]
    · rw [if_neg h1]
      by_cases h2 : y = 1 ∧ x = 0
      · rw [if_pos h2]
      · rw [if_neg h2]
  · rw [(cex_update false rngFF).1]
    rfl

/-- C3 (amended).  Every movement of one scan step, whichever candidate
fires: a processed in-bounds cell is either skipped, stays in place
(only its visited marker stamped), or moves to a single in-bounds
destination and no other cell changes; a Sand or Gravel move (straight
down or diagonal) exchanges the entire contents (kind and visited
marker) of source and destination, the vacated source receiving exactly
the former destination cell, while a Water move (straight down,
diagonal, or lateral) copies the water particle into the destination
and resets the vacated source to the default cell (Empty, visited
false), never the former destination contents. -/
theorem C3_swap_amended (clock : Bool) (g : Grid) (r : Rng) (y x : Nat)
    (hy : y < GRID_HEIGHT) (hx : x < GRID_WIDTH) :
    ((g y x).touched = clock ∧ stepCell clock g r y x = (g, r)) ∨
    (stepCell clock g r y x).1 = toggleCell g y x clock ∨
    (∃ yd xd, yd < GRID_HEIGHT ∧ xd < GRID_WIDTH ∧ ¬(yd = y ∧ xd = x) ∧
      (∀ y2 x2, ¬(y2 = y ∧ x2 = x) → ¬(y2 = yd ∧ x2 = xd) →
        (stepCell clock g r y x).1 y2 x2 = g y2 x2) ∧
      ((((g y x).kind = Kind.Sand ∨ (g y x).kind = Kind.Gravel) ∧
        (stepCell clock g r y x).1 y x = g yd xd ∧
        (stepCell clock g r y x).1 yd xd = ⟨(g y x).kind, clock⟩) ∨
       ((g y x).kind = Kind.Water ∧
        (stepCell clock g r y x).1 y x = Particle.default ∧
        (stepCell clock g r y x).1 yd xd = ⟨Kind.Water, clock⟩))) := by
  rcases stepCell_shape clock g r y x hy hx with ⟨ht, hs⟩ |
    ⟨ht, hT | ⟨x2, hkor, hy1, hx2, hdk, hres⟩ | ⟨yd, xd, hk, hyd, hxd, hne, hde, hres⟩⟩
  · exact Or.inl ⟨ht, hs⟩
  · exact Or.inr (Or.inl hT)
  · refine Or.inr (Or.inr ⟨y + 1, x2, hy1, hx2,
      fun hc => absurd hc.1 (by omega), ?_, Or.inl ⟨hkor, ?_, ?_⟩⟩)
    · intro y2 xx hns hnd
      rw [hres, swap_at_other _ y x (y + 1) x2 y2 xx hns hnd,
        toggleCell_ne g y x clock y2 xx hns]
    · rw [hres, swap_at_src _ y x (y + 1) x2 (fun hc => absurd hc.1 (by omega)),
        toggleCell_ne g y x clock (y + 1) x2 (fun hc => absurd hc.1 (by omega))]
    · rw [hres, swap_at_dest, toggleCell_self]
  · have hydH : yd < GRID_HEIGHT := by rcases hyd with ⟨h1, h2⟩ | h1 <;> omega
    refine Or.inr (Or.inr ⟨yd, xd, hydH, hxd, hne, ?_, Or.inr ⟨hk, ?_, ?_⟩⟩)
    · intro y2 xx hns hnd
      rw [hres, wmove_at_other _ y x yd xd y2 xx hns hnd,
        toggleCell_ne g y x clock y2 xx hns]
    · rw [hres, wmove_at_src]
    · rw [hres, wmove_at_dest _ y x yd xd hne, toggleCell_self, hk]

/-- A single Sand particle at (x, y) = (0, 0) over an Empty column. -/
def gridSand : Grid := fun y x =>
  if y = 0 ∧ x = 0 then ⟨Kind.Sand, false⟩ else ⟨Kind.Empty, false⟩

/-- A single Gravel particle at (x, y) = (0, 0) over an Empty column. -/
def gridGravel : Grid := fun y x =>
  if y = 0 ∧ x = 0 then ⟨Kind.Gravel, false⟩ else ⟨Kind.Empty, false⟩

/-- Witness for C3: the move enumeration at a concrete in-bounds cell,
with both bound hypotheses checked by evaluation. -/
theorem C3_swap_amended_witness :
    0 < GRID_HEIGHT ∧ 0 < GRID_WIDTH ∧
    (((gridSand 0 0).touched = true ∧ stepCell true gridSand rngFF 0 0 = (gridSand, rngFF)) ∨
     (stepCell true gridSand rngFF 0 0).1 = toggleCell gridSand 0 0 true ∨
     (∃ yd xd, yd < GRID_HEIGHT ∧ xd < GRID_WIDTH ∧ ¬(yd = 0 ∧ xd = 0) ∧
       (∀ y2 x2, ¬(y2 = 0 ∧ x2 = 0) → ¬(y2 = yd ∧ x2 = xd) →
         (stepCell true gridSand rngFF 0 0).1 y2 x2 = gridSand y2 x2) ∧
       ((((gridSand 0 0).kind = Kind.Sand ∨ (gridSand 0 0).kind = Kind.Gravel) ∧
         (stepCell true gridSand rngFF 0 0).1 0 0 = gridSand yd xd ∧
         (stepCell true gridSand rngFF 0 0).1 yd xd = ⟨(gridSand 0 0).kind, true⟩) ∨
        ((gridSand 0 0).kind = Kind.Water ∧
         (stepCell true gridSand rngFF 0 0).1 0 0 = Particle.default ∧
         (stepCell true gridSand rngFF 0 0).1 yd xd = ⟨Kind.Water, true⟩)))) :=
  ⟨by decide, by decide, C3_swap_amended true gridSand rngFF 0 0 (by decide) (by decide)⟩

/-- C3 counterexample: in the single-falling-water world whose
destination cell (x, y) = (0, 1) holds the Empty cell with visited =
true, one update moves the Water into (0, 1), but the vacated source
cell receives the default cell, not the former destination contents
(Empty with visited = true): the exchange is not a swap of entire
contents. -/
theorem C3_counterexample :
    (World.update (cexWorld true) rngFF).1.particles 1 0 = ⟨Kind.Water, true⟩ ∧
    (World.update (cexWorld true) rngFF).1.particles 0 0 = Particle.default ∧
    (cexWorld true).particles 1 0 = ⟨Kind.Empty, true⟩ ∧
    Particle.default ≠ (⟨Kind.Empty, true⟩ : Particle) := by
  refine ⟨(cex_update true rngFF).2, (cex_update true rngFF).1, ?_, by decide⟩
  show cexGrid true 1 0 = ⟨Kind.Empty, true⟩
  unfold cexGrid
  rw [if_neg (fun hc => by omega), if_pos ⟨rfl, rfl⟩]

/-- C5.  Paint interface semantics: an in-bounds erase (kind Empty)
always overwrites the target cell with Empty; an in-bounds non-Empty
paint writes only when the target cell holds Empty and otherwise leaves
the world unchanged; an out-of-bounds call leaves the world unchanged
(silent no-op). -/
theorem C5_set_pixel (w : World) (x y : Nat) (kind : Kind) :
    (x < GRID_WIDTH → y < GRID_HEIGHT →
      (World.set_pixel w (x, y) Kind.Empty).particles y x = ⟨Kind.Empty, w.clock⟩) ∧
    (x < GRID_WIDTH → y < GRID_HEIGHT → kind ≠ Kind.Empty → (w.particles y x).empty = true →
      (World.set_pixel w (x, y) kind).particles y x = ⟨kind, w.clock⟩) ∧
    (kind ≠ Kind.Empty → ¬((w.particles y x).empty = true) →
      World.set_pixel w (x, y) kind = w) ∧
    (¬(x < GRID_WIDTH ∧ y < GRID_HEIGHT) → World.set_pixel w (x, y) kind = w) := by
  refine ⟨?_, ?_, ?_, ?_⟩
  · intro hx hy
    unfold World.set_pixel
    rw [if_pos ⟨hx, hy, Or.inl rfl⟩]
    show setCell w.particles y x ⟨Kind.Empty, w.clock⟩ y x = (⟨Kind.Empty, w.clock⟩ : Particle)
    rw [setCell_self]
  · intro hx hy _ hempty
    unfold World.set_pixel
    rw [if_pos ⟨hx, hy, Or.inr hempty⟩]
    show setCell w.particles y x ⟨kind, w.clock⟩ y x = (⟨kind, w.clock⟩ : Particle)
    rw [setCell_self]
  · intro hk hempty
    unfold World.set_pixel
    rw [if_neg (fun hg => by
      rcases hg.2.2 with h | h
      · exact hk h
      · exact hempty h)]
  · intro hb
    unfold World.set_pixel
    rw [if_neg (fun hg => hb ⟨hg.1, hg.2.1⟩)]

/-- Witness for C5: all four behaviors at concrete worlds. -/
theorem C5_set_pixel_witness :
    (World.set_pixel World.new (5, 7) Kind.Empty).particles 7 5 = ⟨Kind.Empty, false⟩ ∧
    (World.set_pixel World.new (5, 7) Kind.Sand).particles 7 5 = ⟨Kind.Sand, false⟩ ∧
    World.set_pixel (cexWorld false) (0, 0) Kind.Sand = cexWorld false ∧
    World.set_pixel World.new (400, 0) Kind.Sand = World.new :=
  ⟨(C5_set_pixel World.new 5 7 Kind.Empty).1 (by decide) (by decide),
   (C5_set_pixel World.new 5 7 Kind.Sand).2.1 (by decide) (by decide) (by decide) (by decide),
   (C5_set_pixel (cexWorld false) 0 0 Kind.Sand).2.2.1 (by decide) (by decide),
   (C5_set_pixel World.new 400 0 Kind.Sand).2.2.2 (by decide)⟩

/-- C10.  Frame property of set_pixel: a call changes at most the single
target cell, never the tick-parity flag, and a successful write stores
the requested kind with visited = the current tick parity. -/
theorem C10_set_pixel_frame (w : World) (x y : Nat) (kind : Kind) :
    (World.set_pixel w (x, y) kind).clock = w.clock ∧
    (∀ y' x', ¬(y' = y ∧ x' = x) →
      (World.set_pixel w (x, y) kind).particles y' x' = w.particles y' x') ∧
    (x < GRID_WIDTH → y < GRID_HEIGHT →
      (kind = Kind.Empty ∨ (w.particles y x).empty = true) →
      (World.set_pixel w (x, y) kind).particles y x = ⟨kind, w.clock⟩) := by
  refine ⟨?_, ?_, ?_⟩
  · unfold World.set_pixel
    split
    · rfl
    · rfl
  · intro y' x' hne
    unfold World.set_pixel
    split
    · show setCell w.particles y x ⟨kind, w.clock⟩ y' x' = w.particles y' x'
      exact setCell_ne w.particles y x _ y' x' hne
    · rfl
  · intro hx hy hcond
    unfold World.set_pixel
    rw [if_pos ⟨hx, hy, hcond⟩]
    show setCell w.particles y x ⟨kind, w.clock⟩ y x = (⟨kind, w.clock⟩ : Particle)
    rw [setCell_self]

/-- Witness for C10: frame facts of one concrete paint call. -/
theorem C10_set_pixel_frame_witness :
    (World.set_pixel World.new (5, 7) Kind.Sand).clock = World.new.clock ∧
    (World.set_pixel World.new (5, 7) Kind.Sand).particles 3 4 = World.new.particles 3 4 ∧
    (World.set_pixel World.new (5, 7) Kind.Sand).particles 7 5 = ⟨Kind.Sand, World.new.clock⟩ :=
  ⟨(C10_set_pixel_frame World.new 5 7 Kind.Sand).1,
   (C10_set_pixel_frame World.new 5 7 Kind.Sand).2.1 3 4 (by decide),
   (C10_set_pixel_frame World.new 5 7 Kind.Sand).2.2 (by decide) (by decide)
     (Or.inr (by decide))⟩

theorem toggleCell_empty (g : Grid) (y x : Nat) (c : Bool) (y' x' : Nat) :
    (toggleCell g y x c y' x').empty = (g y' x').empty := by
  unfold Particle.empty
  rw [toggleCell_kind]

/-- C4 (amended).  Water's third movement candidate: when the straight
drop and the first two candidates fail and the third fires, the
destination is at horizontal distance n, with n drawn uniformly from
2..4 and a uniformly drawn sign, and must be Empty in the SOURCE'S OWN
ROW y; the stepping-stone gate reads the row-below cell at distance
n - 1 in the same direction, which must hold Water; on success the
particle is written into (new_x5, y) — its own row, not the row below —
and the vacated source cell becomes the default cell. -/
theorem C4_water_third_candidate (clock : Bool) (g : Grid) (r : Rng) (y x : Nat)
    (ht : (g y x).touched ≠ clock)
    (hk : (g y x).kind = Kind.Water)
    (hdown : y < GRID_HEIGHT - 1)
    (hblocked : ¬((g (y + 1) x).empty = true))
    (hc1 : ¬((0 ≤ waterNewX1 r x ∧ waterNewX1 r x < (GRID_WIDTH : Int)) ∧
      (g (y + 1) (waterNewX1 r x).toNat).empty = true ∧
      (g (y + 1) (waterCheckX1 r x).toNat).kind = Kind.Water))
    (hc2 : ¬((0 ≤ waterNewX4 r x ∧ waterNewX4 r x < (GRID_WIDTH : Int)) ∧
      (g y (waterNewX4 r x).toNat).empty = true))
    (hb5 : 0 ≤ waterNewX5 r x ∧ waterNewX5 r x < (GRID_WIDTH : Int))
    (he5 : (g y (waterNewX5 r x).toNat).empty = true)
    (hs5 : (g (y + 1) (waterCheckX5 r x).toNat).kind = Kind.Water) :
    (stepCell clock g r y x).1 y (waterNewX5 r x).toNat = ⟨Kind.Water, clock⟩ ∧
    (stepCell clock g r y x).1 y x = Particle.default ∧
    2 ≤ wN5 r ∧ wN5 r < 5 ∧
    (waterNewX5 r x).toNat ≠ x := by
  have hstep : stepCell clock g r y x = waterStep (toggleCell g y x clock) r y x := by
    rw [stepCell_go clock g r y x ht, hk]
  have hn5 := wN5_mem r
  have hne5 : (waterNewX5 r x).toNat ≠ x := by
    have hdef : waterNewX5 r x = (x : Int) + (wN5 r : Int) * (boolToInt (wSb5 r) * 2 - 1) := rfl
    have h1 := hb5.1
    rcases boolToInt_cases (wSb5 r) with h | h <;> rw [h] at hdef <;> omega
  have hwD : ¬(y < GRID_HEIGHT - 1 ∧ (toggleCell g y x clock (y + 1) x).empty = true) := by
    intro hc
    rw [toggleCell_empty] at hc
    exact hblocked hc.2
  have hwA : ¬(y < GRID_HEIGHT - 1 ∧
      (0 ≤ waterNewX1 r x ∧ waterNewX1 r x < (GRID_WIDTH : Int)) ∧
      (toggleCell g y x clock (y + 1) (waterNewX1 r x).toNat).empty = true ∧
      (toggleCell g y x clock (y + 1) (waterCheckX1 r x).toNat).kind = Kind.Water) := by
    intro hc
    rw [toggleCell_empty] at hc
    rw [toggleCell_kind] at hc
    exact hc1 ⟨hc.2.1, hc.2.2.1, hc.2.2.2⟩
  have hwB : ¬((0 ≤ waterNewX4 r x ∧ waterNewX4 r x < (GRID_WIDTH : Int)) ∧
      (toggleCell g y x clock y (waterNewX4 r x).toNat).empty = true) := by
    intro hc
    rw [toggleCell_empty] at hc
    exact hc2 hc
  have hwC : y < GRID_HEIGHT - 1 ∧
      (0 ≤ waterNewX5 r x ∧ waterNewX5 r x < (GRID_WIDTH : Int)) ∧
      (toggleCell g y x clock y (waterNewX5 r x).toNat).empty = true ∧
      (toggleCell g y x clock (y + 1) (waterCheckX5 r x).toNat).kind = Kind.Water := by
    refine ⟨hdown, hb5, ?_, ?_⟩
    · rw [toggleCell_empty]
      exact he5
    · rw [toggleCell_kind]
      exact hs5
  have harm : (waterStep (toggleCell g y x clock) r y x).1 =
      setCell (setCell (toggleCell g y x clock) y (waterNewX5 r x).toNat
        (toggleCell g y x clock y x)) y x Particle.default := by
    unfold waterStep
    rw [if_neg hwD, if_neg hwA, if_neg hwB, if_pos hwC]
  refine ⟨?_, ?_, hn5.1, hn5.2, hne5⟩
  · rw [hstep, harm, wmove_at_dest _ y x y (waterNewX5 r x).toNat
      (fun hc => hne5 hc.2), toggleCell_self, hk]
  · rw [hstep, harm, wmove_at_src]

/-- A Water cell at (x, y) = (5, 0) whose straight drop and first two
candidates are blocked while the third candidate can fire with the
all-false draw stream (n1 = 1, both signs negative, n5 = 2): below is
Stone, the first-candidate destination (4, 1) holds Water (which is
also the stepping stone at distance n5 - 1), the lateral cell (6, 0) is
Stone, and the third-candidate destination (3, 0) is Empty. -/
def grid4 : Grid := fun y x =>
  if y = 0 ∧ x = 5 then ⟨Kind.Water, false⟩
  else if y = 1 ∧ x = 5 then ⟨Kind.Stone, false⟩
  else if y = 1 ∧ x = 4 then ⟨Kind.Water, false⟩
  else if y = 0 ∧ x = 6 then ⟨Kind.Stone, false⟩
  else ⟨Kind.Empty, false⟩

/-- Witness for C4: the third candidate fires at a concrete grid and
draw stream; the particle lands in its own row. -/
theorem C4_water_third_candidate_witness :
    (stepCell true grid4 rngFF 0 5).1 0 (waterNewX5 rngFF 5).toNat = ⟨Kind.Water, true⟩ ∧
    (stepCell true grid4 rngFF 0 5).1 0 5 = Particle.default ∧
    2 ≤ wN5 rngFF ∧ wN5 rngFF < 5 ∧
    (waterNewX5 rngFF 5).toNat ≠ 5 :=
  C4_water_third_candidate true grid4 rngFF 0 5 (by decide) (by decide) (by decide)
    (by decide) (by decide) (by decide) (by decide) (by decide) (by decide)

instance (c : Bool) (p : Particle) : Decidable (quietP c p) := by
  unfold quietP
  infer_instance

/-- The C4 counterexample world: a Water source at (x, y) = (5, 238)
with Stone below at (5, 239), a Water stepping stone at (4, 239) in the
bottom row, and Stone at (6, 238) blocking the lateral candidate, all
over an otherwise Empty grid; clock false, so the tick runs with parity
true and ascending columns. -/
def c4Grid : Grid := fun y x =>
  if y = 238 ∧ x = 5 then ⟨Kind.Water, false⟩
  else if y = 239 ∧ x = 5 then ⟨Kind.Stone, false⟩
  else if y = 239 ∧ x = 4 then ⟨Kind.Water, false⟩
  else if y = 238 ∧ x = 6 then ⟨Kind.Stone, false⟩
  else ⟨Kind.Empty, false⟩

def c4World : World := ⟨c4Grid, false⟩

/-- Intermediate grids of the scan of the C4 world, bottom row first. -/
def c4gA : Grid := fun y' x' =>
  if y' = 239 ∧ x' ∈ List.range' 0 4 then ⟨(c4Grid 239 x').kind, true⟩ else c4Grid y' x'

def c4gB : Grid := toggleCell c4gA 239 4 true

def c4gRow239 : Grid := fun y' x' =>
  if y' = 239 ∧ x' ∈ List.range' 5 315 then ⟨(c4gB 239 x').kind, true⟩ else c4gB y' x'

def c4gC : Grid := fun y' x' =>
  if y' = 238 ∧ x' ∈ List.range' 0 5 then ⟨(c4gRow239 238 x').kind, true⟩ else c4gRow239 y' x'

def c4gD : Grid := toggleCell c4gC 238 5 true

def c4gE : Grid := setCell (setCell c4gD 238 3 (c4gD 238 5)) 238 5 Particle.default

def c4gRow238 : Grid := fun y' x' =>
  if y' = 238 ∧ x' ∈ List.range' 6 314 then ⟨(c4gE 238 x').kind, true⟩ else c4gE y' x'

def c4r1 : Rng := wRest rngFF

def c4r2 : Rng := wRest c4r1

def c4gF : Grid := fun y' x' =>
  if y' ∈ (List.range' 0 238).reverse ∧ x' < GRID_WIDTH then ⟨(c4gRow238 y' x').kind, true⟩
  else c4gRow238 y' x'

theorem c4_yOrd : yOrd = [239, 238] ++ (List.range' 0 238).reverse := by
  have h1 : List.range' 0 238 ++ List.range' 238 2 = List.range' 0 240 := by
    have h := List.range'_append 0 238 2 1
    simpa using h
  rw [yOrd, show GRID_HEIGHT = 240 from rfl, List.range_eq_range', ← h1, List.reverse_append]
  rfl

theorem c4_hx1 : xOrd true = List.range' 0 4 ++ 4 :: List.range' 5 315 := by decide

theorem c4_hx2 : xOrd true = List.range' 0 5 ++ 5 :: List.range' 6 314 := by decide

theorem c4_foldA : (List.range' 0 4).foldl (fun gr x => stepCell true gr.1 gr.2 239 x)
    (c4Grid, rngFF) = (c4gA, rngFF) := by
  rw [foldQuiet true 239 (List.range' 0 4) c4Grid rngFF (by decide)]
  rfl

theorem c4_stepB : stepCell true c4gA rngFF 239 4 = (c4gB, c4r1) := by
  have ht : (c4gA 239 4).touched ≠ true := by decide
  have hk : (c4gA 239 4).kind = Kind.Water := by decide
  rw [stepCell_go true c4gA rngFF 239 4 ht, hk]
  show waterStep c4gB rngFF 239 4 = (c4gB, c4r1)
  unfold waterStep
  rw [if_neg (by decide), if_neg (by decide), if_neg (by decide), if_neg (by decide)]
  rfl

theorem c4_foldB : (List.range' 5 315).foldl (fun gr x => stepCell true gr.1 gr.2 239 x)
    (c4gB, c4r1) = (c4gRow239, c4r1) := by
  rw [foldQuiet true 239 (List.range' 5 315) c4gB c4r1 (by decide)]
  rfl

theorem c4_row239 : scanRow true 239 (c4Grid, rngFF) = (c4gRow239, c4r1) := by
  unfold scanRow
  rw [c4_hx1, List.foldl_append, c4_foldA]
  simp only [List.foldl_cons]
  rw [c4_stepB]
  exact c4_foldB

theorem c4_foldC : (List.range' 0 5).foldl (fun gr x => stepCell true gr.1 gr.2 238 x)
    (c4gRow239, c4r1) = (c4gC, c4r1) := by
  rw [foldQuiet true 238 (List.range' 0 5) c4gRow239 c4r1 (by decide)]
  rfl

theorem c4_stepD : stepCell true c4gC c4r1 238 5 = (c4gE, c4r2) := by
  have ht : (c4gC 238 5).touched ≠ true := by decide
  have hk : (c4gC 238 5).kind = Kind.Water := by decide
  rw [stepCell_go true c4gC c4r1 238 5 ht, hk]
  show waterStep c4gD c4r1 238 5 = (c4gE, c4r2)
  unfold waterStep
  rw [if_neg (by decide), if_neg (by decide), if_neg (by decide), if_pos (by decide)]
  rfl

theorem c4_foldE : (List.range' 6 314).foldl (fun gr x => stepCell true gr.1 gr.2 238 x)
    (c4gE, c4r2) = (c4gRow238, c4r2) := by
  rw [foldQuiet true 238 (List.range' 6 314) c4gE c4r2 (by decide)]
  rfl

theorem c4_row238 : scanRow true 238 (c4gRow239, c4r1) = (c4gRow238, c4r2) := by
  unfold scanRow
  rw [c4_hx2, List.foldl_append, c4_foldC]
  simp only [List.foldl_cons]
  rw [c4_stepD]
  exact c4_foldE

theorem c4_rowsTop : ((List.range' 0 238).reverse).foldl (fun gr y => scanRow true y gr)
    (c4gRow238, c4r2) = (c4gF, c4r2) := by
  have hq : ∀ y ∈ (List.range' 0 238).reverse, ∀ x, x < GRID_WIDTH →
      quietP true (c4gRow238 y x) := by
    intro y hy x hx
    rw [List.mem_reverse, List.mem_range'_1] at hy
    have h1 : c4gRow238 y x = c4Grid y x := by
      rw [show c4gRow238 y x = c4gE y x from by
        unfold c4gRow238
        rw [if_neg (fun hc => absurd hc.1 (by omega))]]
      rw [show c4gE y x = c4gD y x from by
        unfold c4gE
        rw [setCell_ne _ 238 5 _ y x (fun hc => absurd hc.1 (by omega)),
          setCell_ne _ 238 3 _ y x (fun hc => absurd hc.1 (by omega))]]
      rw [show c4gD y x = c4gC y x from by
        unfold c4gD
        rw [toggleCell_ne _ 238 5 true y x (fun hc => absurd hc.1 (by omega))]]
      rw [show c4gC y x = c4gRow239 y x from by
        unfold c4gC
        rw [if_neg (fun hc => absurd hc.1 (by omega))]]
      rw [show c4gRow239 y x = c4gB y x from by
        unfold c4gRow239
        rw [if_neg (fun hc => absurd hc.1 (by omega))]]
      rw [show c4gB y x = c4gA y x from by
        unfold c4gB
        rw [toggleCell_ne _ 239 4 true y x (fun hc => absurd hc.1 (by omega))]]
      unfold c4gA
      rw [if_neg (fun hc => absurd hc.1 (by omega))]
    rw [h1]
    unfold c4Grid quietP
    rw [if_neg (fun hc => absurd hc.1 (by omega)), if_neg (fun hc => absurd hc.1 (by omega)),
      if_neg (fun hc => absurd hc.1 (by omega)), if_neg (fun hc => absurd hc.1 (by omega))]
    exact Or.inl rfl
  rw [foldRows_quiet true (List.range' 0 238).reverse c4gRow238 c4r2 hq]
  rfl

theorem c4_final : (World.update c4World rngFF).1.particles = c4gF := by
  rw [update_particles c4World rngFF,
    show (!c4World.clock) = true from rfl,
    show c4World.particles = c4Grid from rfl,
    c4_yOrd, List.foldl_append]
  simp only [List.foldl_cons, List.foldl_nil]
  rw [c4_row239, c4_row238, c4_rowsTop]

theorem c4_l1 : c4gRow238 238 3 = ⟨Kind.Water, true⟩ := by decide

theorem c4_l2 : c4gRow238 238 5 = Particle.default := by decide

theorem c4_l3 : (c4gRow238 239 3).kind = Kind.Empty := by decide

theorem c4_l4 : (c4gRow238 239 4).kind = Kind.Water := by decide

/-- C4 counterexample: in the C4 world, with the all-false draw stream,
the Water at (5, 238) takes the third candidate (distance 2 leftwards,
stepping stone at (4, 239)) and ends at (3, 238) — its OWN row — while
the row-below cell (3, 239) predicted by the claim stays Empty; the
source is vacated to the default cell and the stepping-stone Water
stays at (4, 239). -/
theorem C4_counterexample :
    (World.update c4World rngFF).1.particles 238 3 = ⟨Kind.Water, true⟩ ∧
    (World.update c4World rngFF).1.particles 238 5 = Particle.default ∧
    ((World.update c4World rngFF).1.particles 239 3).kind = Kind.Empty ∧
    ((World.update c4World rngFF).1.particles 239 4).kind = Kind.Water := by
  have hskip : ∀ y x : Nat, y ∉ (List.range' 0 238).reverse → c4gF y x = c4gRow238 y x := by
    intro y x hy
    unfold c4gF
    rw [if_neg (fun hc => hy hc.1)]
  have h238 : (238 : Nat) ∉ (List.range' 0 238).reverse := by
    rw [List.mem_reverse, List.mem_range'_1]
    omega
  have h239 : (239 : Nat) ∉ (List.range' 0 238).reverse := by
    rw [List.mem_reverse, List.mem_range'_1]
    omega
  rw [c4_final, hskip 238 3 h238, hskip 238 5 h238, hskip 239 3 h239, hskip 239 4 h239]
  exact ⟨c4_l1, c4_l2, c4_l3, c4_l4⟩

/-- One tick of a world holding a single Sand particle at (x0, y0) over
an Empty cell, every other cell Empty, with every visited marker equal
to the old parity: the Sand falls straight down one row (the straight
drop candidate always fires) and every cell ends with the new parity.
Holds for every draw stream and for both column scan directions. -/
theorem sandFallStep (w : World) (r : Rng) (y0 x0 : Nat)
    (hy0 : y0 + 1 < GRID_HEIGHT) (hx0 : x0 < GRID_WIDTH)
    (hg : ∀ y x, y < GRID_HEIGHT → x < GRID_WIDTH →
      w.particles y x =
        if y = y0 ∧ x = x0 then ⟨Kind.Sand, w.clock⟩ else ⟨Kind.Empty, w.clock⟩) :
    (World.update w r).1.clock = !w.clock ∧
    ∀ y x, y < GRID_HEIGHT → x < GRID_WIDTH →
      (World.update w r).1.particles y x =
        if y = y0 + 1 ∧ x = x0 then ⟨Kind.Sand, !w.clock⟩ else ⟨Kind.Empty, !w.clock⟩ := by
  have hH240 : GRID_HEIGHT = 240 := rfl
  refine ⟨update_clock w r, ?_⟩
  intro y x hy hx
  rw [update_particles w r]
  set c := !w.clock with hcdef
  -- pointwise evaluators for the two patch shapes produced by the
  -- quiet-fold lemmas
  have hifp : ∀ (gg : Grid) (yr : Nat) (L : List Nat) (yv xv : Nat), yv = yr → xv ∈ L →
      (fun y' x' => if y' = yr ∧ x' ∈ L then (⟨(gg yr x').kind, c⟩ : Particle)
        else gg y' x') yv xv = ⟨(gg yr xv).kind, c⟩ := by
    intro gg yr L yv xv h1 h2
    exact if_pos ⟨h1, h2⟩
  have hifn : ∀ (gg : Grid) (yr : Nat) (L : List Nat) (yv xv : Nat), ¬(yv = yr ∧ xv ∈ L) →
      (fun y' x' => if y' = yr ∧ x' ∈ L then (⟨(gg yr x').kind, c⟩ : Particle)
        else gg y' x') yv xv = gg yv xv := by
    intro gg yr L yv xv h
    exact if_neg h
  have hifrp : ∀ (gg : Grid) (R : List Nat) (yv xv : Nat), yv ∈ R → xv < GRID_WIDTH →
      (fun y' x' => if y' ∈ R ∧ x' < GRID_WIDTH then (⟨(gg y' x').kind, c⟩ : Particle)
        else gg y' x') yv xv = ⟨(gg yv xv).kind, c⟩ := by
    intro gg R yv xv h1 h2
    exact if_pos ⟨h1, h2⟩
  have hifrn : ∀ (gg : Grid) (R : List Nat) (yv xv : Nat), ¬(yv ∈ R ∧ xv < GRID_WIDTH) →
      (fun y' x' => if y' ∈ R ∧ x' < GRID_WIDTH then (⟨(gg y' x').kind, c⟩ : Particle)
        else gg y' x') yv xv = gg yv xv := by
    intro gg R yv xv h
    exact if_neg h
  have hSand : w.particles y0 x0 = ⟨Kind.Sand, w.clock⟩ := by
    rw [hg y0 x0 (by omega) hx0, if_pos ⟨rfl, rfl⟩]
  have hEmpty : ∀ yy xx, yy < GRID_HEIGHT → xx < GRID_WIDTH → ¬(yy = y0 ∧ xx = x0) →
      w.particles yy xx = ⟨Kind.Empty, w.clock⟩ := by
    intro yy xx hyy hxx hne
    rw [hg yy xx hyy hxx, if_neg hne]
  -- row decomposition: rows below y0, then y0, then rows above
  have hsplitRows : yOrd = (List.range' (y0 + 1) (239 - y0)).reverse ++
      y0 :: (List.range' 0 y0).reverse := by
    have h1 : List.range' 0 y0 ++ [y0] = List.range' 0 (y0 + 1) := by
      have h := List.range'_append 0 y0 1 1
      rw [show 0 + 1 * y0 = y0 from by ring] at h
      rw [show List.range' y0 1 = [y0] from rfl] at h
      rw [show 1 + y0 = y0 + 1 from by omega] at h
      exact h
    have h2 : List.range' 0 (y0 + 1) ++ List.range' (y0 + 1) (239 - y0) =
        List.range' 0 240 := by
      have h := List.range'_append 0 (y0 + 1) (239 - y0) 1
      rw [show 0 + 1 * (y0 + 1) = y0 + 1 from by ring] at h
      rw [show 239 - y0 + (y0 + 1) = 240 from by omega] at h
      exact h
    rw [yOrd, hH240, List.range_eq_range', ← h2, ← h1, List.reverse_append,
      List.reverse_append]
    rfl
  rw [hsplitRows, List.foldl_append]
  -- phase 1: rows strictly below y0 are quiet
  have hmemR1 : ∀ yy, yy ∈ (List.range' (y0 + 1) (239 - y0)).reverse ↔
      (y0 + 1 ≤ yy ∧ yy < 240) := by
    intro yy
    rw [List.mem_reverse, List.mem_range'_1]
    omega
  have hq1 : ∀ yy ∈ (List.range' (y0 + 1) (239 - y0)).reverse, ∀ xx, xx < GRID_WIDTH →
      quietP c (w.particles yy xx) := by
    intro yy hyR xx hxW
    rw [(hmemR1 yy)] at hyR
    rw [hEmpty yy xx (by omega) hxW (fun hcc => by omega)]
    exact Or.inl rfl
  rw [foldRows_quiet c (List.range' (y0 + 1) (239 - y0)).reverse w.particles r hq1]
  set g1 : Grid := fun y' x' =>
    if y' ∈ (List.range' (y0 + 1) (239 - y0)).reverse ∧ x' < GRID_WIDTH then
      ⟨(w.particles y' x').kind, c⟩
    else w.particles y' x' with hg1def
  have hg1row : ∀ yy xx, y0 < yy → yy < 240 → xx < GRID_WIDTH →
      g1 yy xx = ⟨Kind.Empty, c⟩ := by
    intro yy xx h1 h2 hxW
    rw [hg1def, hifrp w.particles _ yy xx ((hmemR1 yy).mpr (by omega)) hxW,
      hEmpty yy xx (by omega) hxW (fun hcc => by omega)]
  have hg1keep : ∀ yy xx, yy ≤ y0 → g1 yy xx = w.particles yy xx := by
    intro yy xx h1
    rw [hg1def]
    exact hifrn w.particles _ yy xx (fun hcc => by
      have := (hmemR1 yy).mp hcc.1
      omega)
  -- phase 2: row y0
  simp only [List.foldl_cons]
  have hxmem : x0 ∈ xOrd c := (mem_xOrd c x0).mpr hx0
  obtain ⟨L1, L2, hLsplit⟩ := List.append_of_mem hxmem
  have hnodup : (xOrd c).Nodup := by
    cases c <;> simp [xOrd, List.nodup_range]
  have hdisj := List.nodup_append.mp (by rw [← hLsplit]; exact hnodup)
  have hx0L1 : x0 ∉ L1 := fun hmem => hdisj.2.2 hmem (List.mem_cons_self x0 L2)
  have hx0L2 : x0 ∉ L2 := (List.nodup_cons.mp hdisj.2.1).1
  have hL1W : ∀ xx ∈ L1, xx < GRID_WIDTH := fun xx hxx =>
    (mem_xOrd c xx).mp (by rw [hLsplit]; exact List.mem_append_left _ hxx)
  have hL2W : ∀ xx ∈ L2, xx < GRID_WIDTH := fun xx hxx =>
    (mem_xOrd c xx).mp
      (by rw [hLsplit]; exact List.mem_append_right _ (List.mem_cons_of_mem x0 hxx))
  rw [show scanRow c y0 (g1, r) =
      (xOrd c).foldl (fun gr x => stepCell c gr.1 gr.2 y0 x) (g1, r) from rfl,
    hLsplit, List.foldl_append]
  have hq2 : ∀ xx ∈ L1, quietP c (g1 y0 xx) := by
    intro xx hxx
    have hxW := hL1W xx hxx
    have hxne : xx ≠ x0 := fun he => hx0L1 (he ▸ hxx)
    rw [hg1keep y0 xx (le_refl y0),
      hEmpty y0 xx (by omega) hxW (fun hcc => hxne hcc.2)]
    exact Or.inl rfl
  rw [foldQuiet c y0 L1 g1 r hq2]
  set g2 : Grid := fun y' x' =>
    if y' = y0 ∧ x' ∈ L1 then ⟨(g1 y0 x').kind, c⟩ else g1 y' x' with hg2def
  simp only [List.foldl_cons]
  -- the Sand step at (y0, x0)
  have hg2at : g2 y0 x0 = ⟨Kind.Sand, w.clock⟩ := by
    rw [hg2def, hifn g1 y0 L1 y0 x0 (fun hcc => hx0L1 hcc.2),
      hg1keep y0 x0 (le_refl y0), hSand]
  have ht : (g2 y0 x0).touched ≠ c := by
    rw [hg2at, hcdef]
    cases hb : w.clock <;> simp
  have hk : (g2 y0 x0).kind = Kind.Sand := by
    rw [hg2at]
  have hstep : stepCell c g2 r y0 x0 = sandStep (toggleCell g2 y0 x0 c) r y0 x0 := by
    rw [stepCell_go c g2 r y0 x0 ht, hk]
  have hbelow : toggleCell g2 y0 x0 c (y0 + 1) x0 = ⟨Kind.Empty, c⟩ := by
    rw [toggleCell_ne g2 y0 x0 c (y0 + 1) x0 (fun hcc => by omega), hg2def,
      hifn g1 y0 L1 (y0 + 1) x0 (fun hcc => by have := hcc.1; omega)]
    exact hg1row (y0 + 1) x0 (by omega) (by omega) hx0
  have hcond : ((toggleCell g2 y0 x0 c (y0 + 1) x0).empty ||
      ((toggleCell g2 y0 x0 c (y0 + 1) x0).kind == Kind.Water)) = true := by
    rw [hbelow]
    rfl
  have hdown : y0 < GRID_HEIGHT - 1 := by omega
  have harm : (sandStep (toggleCell g2 y0 x0 c) r y0 x0) =
      (swapCells (toggleCell g2 y0 x0 c) y0 x0 (y0 + 1) x0, r) := by
    unfold sandStep
    rw [if_pos hdown, if_pos hcond]
  rw [hstep, harm]
  set g3 : Grid := swapCells (toggleCell g2 y0 x0 c) y0 x0 (y0 + 1) x0 with hg3def
  -- remaining columns of row y0
  have hg3row : ∀ xx, xx ≠ x0 → g3 y0 xx = g2 y0 xx := by
    intro xx hxne
    rw [hg3def, swap_at_other _ y0 x0 (y0 + 1) x0 y0 xx
      (fun hcc => hxne hcc.2) (fun hcc => by have := hcc.1; omega),
      toggleCell_ne g2 y0 x0 c y0 xx (fun hcc => hxne hcc.2)]
  have hrowval : ∀ xx, xx < GRID_WIDTH → xx ≠ x0 → g2 y0 xx = ⟨Kind.Empty, w.clock⟩ ∨
      g2 y0 xx = ⟨Kind.Empty, c⟩ := by
    intro xx hxW hxne
    rw [hg2def]
    by_cases hmem : xx ∈ L1
    · rw [hifp g1 y0 L1 y0 xx rfl hmem, hg1keep y0 xx (le_refl y0),
        hEmpty y0 xx (by omega) hxW (fun hcc => hxne hcc.2)]
      exact Or.inr rfl
    · rw [hifn g1 y0 L1 y0 xx (fun hcc => hmem hcc.2),
        hg1keep y0 xx (le_refl y0),
        hEmpty y0 xx (by omega) hxW (fun hcc => hxne hcc.2)]
      exact Or.inl rfl
  have hq3 : ∀ xx ∈ L2, quietP c (g3 y0 xx) := by
    intro xx hxx
    have hxW := hL2W xx hxx
    have hxne : xx ≠ x0 := fun he => hx0L2 (he ▸ hxx)
    rw [hg3row xx hxne]
    rcases hrowval xx hxW hxne with h | h <;> rw [h]
    · exact Or.inl rfl
    · exact Or.inl rfl
  rw [foldQuiet c y0 L2 g3 r hq3]
  set g4 : Grid := fun y' x' =>
    if y' = y0 ∧ x' ∈ L2 then ⟨(g3 y0 x').kind, c⟩ else g3 y' x' with hg4def
  -- phase 3: rows above
  have hg4above : ∀ yy xx, yy < y0 → g4 yy xx = w.particles yy xx := by
    intro yy xx hlt
    rw [hg4def, hifn g3 y0 L2 yy xx (fun hcc => by have := hcc.1; omega),
      hg3def, swap_at_other _ y0 x0 (y0 + 1) x0 yy xx
        (fun hcc => by have := hcc.1; omega) (fun hcc => by have := hcc.1; omega),
      toggleCell_ne g2 y0 x0 c yy xx (fun hcc => by have := hcc.1; omega), hg2def,
      hifn g1 y0 L1 yy xx (fun hcc => by have := hcc.1; omega)]
    exact hg1keep yy xx (by omega)
  have hq4 : ∀ yy ∈ (List.range' 0 y0).reverse, ∀ xx, xx < GRID_WIDTH →
      quietP c (g4 yy xx) := by
    intro yy hyR xx hxW
    rw [List.mem_reverse, List.mem_range'_1] at hyR
    rw [hg4above yy xx (by omega),
      hEmpty yy xx (by omega) hxW (fun hcc => by have := hcc.1; omega)]
    exact Or.inl rfl
  rw [foldRows_quiet c (List.range' 0 y0).reverse g4 r hq4]
  -- final evaluation at (y, x)
  show (fun y' x' => if y' ∈ (List.range' 0 y0).reverse ∧ x' < GRID_WIDTH then
      (⟨(g4 y' x').kind, c⟩ : Particle) else g4 y' x') y x =
    if y = y0 + 1 ∧ x = x0 then ⟨Kind.Sand, c⟩ else ⟨Kind.Empty, c⟩
  by_cases hylt : y < y0
  · rw [hifrp g4 _ y x (by rw [List.mem_reverse, List.mem_range'_1]; omega) hx,
      if_neg (fun hcc : _ ∧ _ => by have := hcc.1; omega), hg4above y x hylt,
      hEmpty y x hy hx (fun hcc => by have := hcc.1; omega)]
  · rw [hifrn g4 _ y x (fun hcc => by
      have := hcc.1
      rw [List.mem_reverse, List.mem_range'_1] at this
      omega)]
    by_cases hyy0 : y = y0
    · subst hyy0
      rw [if_neg (fun hcc : _ ∧ _ => by have := hcc.1; omega), hg4def]
      by_cases hxx0 : x = x0
      · subst hxx0
        rw [hifn g3 y L2 y x (fun hcc => hx0L2 hcc.2), hg3def,
          swap_at_src _ y x (y + 1) x (fun hcc => by have := hcc.1; omega), hbelow]
      · by_cases hmem2 : x ∈ L2
        · rw [hifp g3 y L2 y x rfl hmem2, hg3row x hxx0]
          rcases hrowval x hx hxx0 with h | h <;> rw [h] <;> rfl
        · have hmem1 : x ∈ L1 := by
            have hmx : x ∈ xOrd c := (mem_xOrd c x).mpr hx
            rw [hLsplit] at hmx
            rcases List.mem_append.mp hmx with h | h
            · exact h
            · rcases List.mem_cons.mp h with h | h
              · exact absurd h hxx0
              · exact absurd h hmem2
          rw [hifn g3 y L2 y x (fun hcc => hmem2 hcc.2), hg3row x hxx0, hg2def,
            hifp g1 y L1 y x rfl hmem1, hg1keep y x (le_refl y),
            hEmpty y x hy hx (fun hcc => hxx0 hcc.2)]
    · -- y > y0
      rw [hg4def, hifn g3 y0 L2 y x (fun hcc => hyy0 hcc.1)]
      by_cases hyy1 : y = y0 + 1
      · subst hyy1
        by_cases hxx0 : x = x0
        · subst hxx0
          rw [if_pos ⟨rfl, rfl⟩, hg3def, swap_at_dest, toggleCell_self, hk]
        · rw [if_neg (fun hcc => hxx0 hcc.2), hg3def,
            swap_at_other _ y0 x0 (y0 + 1) x0 (y0 + 1) x
              (fun hcc => by have := hcc.1; omega) (fun hcc => hxx0 hcc.2),
            toggleCell_ne g2 y0 x0 c (y0 + 1) x (fun hcc => by have := hcc.1; omega),
            hg2def, hifn g1 y0 L1 (y0 + 1) x (fun hcc => by have := hcc.1; omega)]
          exact hg1row (y0 + 1) x (by omega) (by omega) hx
      · rw [if_neg (fun hcc => hyy1 hcc.1), hg3def,
          swap_at_other _ y0 x0 (y0 + 1) x0 y x
            (fun hcc => hyy0 hcc.1) (fun hcc => hyy1 hcc.1),
          toggleCell_ne g2 y0 x0 c y x (fun hcc => hyy0 hcc.1), hg2def,
          hifn g1 y0 L1 y x (fun hcc => hyy0 hcc.1)]
        exact hg1row y x (by omega) (by omega) hx

/-- n successive calls to World::update, threading the draw stream. -/
def runTicks : Nat → World × Rng → World × Rng
  | 0, s => s
  | n + 1, s => runTicks n (World.update s.1 s.2)

/-- C6.  Straight fall: from a grid whose only non-Empty cell is a
single Sand particle at (x, y) = (2, 0) (visited markers at the old
parity), after 4 calls to World::update with ANY sequence of random
draws the Sand is at (2, 4) and every other cell is Empty: the
straight-down branch always wins over the diagonal fallback. -/
theorem C6_straight_fall (w : World) (r : Rng)
    (hg : ∀ y x, y < GRID_HEIGHT → x < GRID_WIDTH →
      w.particles y x =
        if y = 0 ∧ x = 2 then ⟨Kind.Sand, w.clock⟩ else ⟨Kind.Empty, w.clock⟩) :
    ((runTicks 4 (w, r)).1.particles 4 2).kind = Kind.Sand ∧
    (∀ y x, y < GRID_HEIGHT → x < GRID_WIDTH → ¬(y = 4 ∧ x = 2) →
      ((runTicks 4 (w, r)).1.particles y x).kind = Kind.Empty) := by
  obtain ⟨hc1, h1⟩ := sandFallStep w r 0 2 (by decide) (by decide) hg
  set s1 := World.update w r with hs1
  have hg1 : ∀ y x, y < GRID_HEIGHT → x < GRID_WIDTH →
      s1.1.particles y x =
        if y = 1 ∧ x = 2 then ⟨Kind.Sand, s1.1.clock⟩ else ⟨Kind.Empty, s1.1.clock⟩ := by
    intro y x hy hx
    rw [h1 y x hy hx, hc1]
  obtain ⟨hc2, h2⟩ := sandFallStep s1.1 s1.2 1 2 (by decide) (by decide) hg1
  set s2 := World.update s1.1 s1.2 with hs2
  have hg2 : ∀ y x, y < GRID_HEIGHT → x < GRID_WIDTH →
      s2.1.particles y x =
        if y = 2 ∧ x = 2 then ⟨Kind.Sand, s2.1.clock⟩ else ⟨Kind.Empty, s2.1.clock⟩ := by
    intro y x hy hx
    rw [h2 y x hy hx, hc2]
  obtain ⟨hc3, h3⟩ := sandFallStep s2.1 s2.2 2 2 (by decide) (by decide) hg2
  set s3 := World.update s2.1 s2.2 with hs3
  have hg3 : ∀ y x, y < GRID_HEIGHT → x < GRID_WIDTH →
      s3.1.particles y x =
        if y = 3 ∧ x = 2 then ⟨Kind.Sand, s3.1.clock⟩ else ⟨Kind.Empty, s3.1.clock⟩ := by
    intro y x hy hx
    rw [h3 y x hy hx, hc3]
  obtain ⟨hc4, h4⟩ := sandFallStep s3.1 s3.2 3 2 (by decide) (by decide) hg3
  set s4 := World.update s3.1 s3.2 with hs4
  have hrun : runTicks 4 (w, r) = s4 := by
    simp only [runTicks]
  constructor
  · rw [hrun, h4 4 2 (by decide) (by decide), if_pos ⟨rfl, rfl⟩]
  · intro y x hy hx hne
    rw [hrun, h4 y x hy hx, if_neg hne]

/-- The single-sand start world of the straight-fall test. -/
def sandWorld : World :=
  ⟨fun y x => if y = 0 ∧ x = 2 then ⟨Kind.Sand, false⟩ else ⟨Kind.Empty, false⟩, false⟩

/-- Witness for C6: the straight fall at a concrete world and stream. -/
theorem C6_straight_fall_witness :
    ((runTicks 4 (sandWorld, rngFF)).1.particles 4 2).kind = Kind.Sand ∧
    ((runTicks 4 (sandWorld, rngFF)).1.particles 0 0).kind = Kind.Empty :=
  ⟨(C6_straight_fall sandWorld rngFF (fun y x _ _ => rfl)).1,
   (C6_straight_fall sandWorld rngFF (fun y x _ _ => rfl)).2 0 0
     (by decide) (by decide) (by decide)⟩

/-- Bounds-checked read self.particles[y][x] for plain usize indices:
an out-of-range array index, which panics in the source, is modeled as
none. -/
def getC (g : Grid) (y x : Nat) : Option Particle :=
  if y < GRID_HEIGHT ∧ x < GRID_WIDTH then some (g y x) else none

/-- Bounds-checked single-cell write for plain usize indices. -/
def setCellC (g : Grid) (y x : Nat) (p : Particle) : Option Grid :=
  if y < GRID_HEIGHT ∧ x < GRID_WIDTH then some (setCell g y x p) else none

/-- Bounds-checked read at a column produced by an `i32 as usize` cast:
a negative i32 wraps to a huge usize, so it is out of bounds exactly like
a column at or beyond GRID_WIDTH; the guard 0 <= i captures that. -/
def getCI (g : Grid) (y : Nat) (i : Int) : Option Particle :=
  if y < GRID_HEIGHT ∧ 0 ≤ i ∧ i < (GRID_WIDTH : Int) then some (g y i.toNat) else none

/-- Bounds-checked write at a column produced by an `i32 as usize` cast. -/
def setCellCI (g : Grid) (y : Nat) (i : Int) (p : Particle) : Option Grid :=
  if y < GRID_HEIGHT ∧ 0 ≤ i ∧ i < (GRID_WIDTH : Int) then some (setCell g y i.toNat p) else none

/-- The Kind::Sand arm with every array access bounds-checked, in source
order; a repeated read of one cell inside a branch is collapsed to a
single checked read of the same coordinate. -/
def sandStepSafe (g : Grid) (r : Rng) (y x : Nat) : Option (Grid × Rng) :=
  if y < GRID_HEIGHT - 1 then
    (getC g (y + 1) x).bind fun pd =>
    if pd.empty || (pd.kind == Kind.Water) then
      (getC g y x).bind fun ps =>
      (setCellC g y x pd).bind fun g1 =>
      (setCellC g1 (y + 1) x ps).bind fun g2 => some (g2, r)
    else
      if 0 ≤ sandNewX r x ∧ sandNewX r x < (GRID_WIDTH : Int) then
        (getCI g (y + 1) (sandNewX r x)).bind fun pdn =>
        if pdn.empty || (pdn.kind == Kind.Water) then
          (getC g y x).bind fun ps =>
          (setCellC g y x pdn).bind fun g1 =>
          (setCellCI g1 (y + 1) (sandNewX r x) ps).bind fun g2 =>
            some (g2, (r.genBool).2)
        else some (g, (r.genBool).2)
      else some (g, (r.genBool).2)
  else some (g, r)

/-- The Kind::Gravel arm with every array access bounds-checked. -/
def gravelStepSafe (g : Grid) (r : Rng) (y x : Nat) : Option (Grid × Rng) :=
  if y < GRID_HEIGHT - 1 then
    (getC g (y + 1) x).bind fun pd =>
    if pd.empty || (pd.kind == Kind.Water) then
      (getC g y x).bind fun ps =>
      (setCellC g y x pd).bind fun g1 =>
      (setCellC g1 (y + 1) x ps).bind fun g2 => some (g2, r)
    else some (g, r)
  else some (g, r)

/-- Third lateral candidate of the Kind::Water arm, bounds-checked:
destination in row y at new_x5, stepping stone in row y + 1 at
check_x5. -/
def waterCand5Safe (g : Grid) (r : Rng) (y x : Nat) : Option (Grid × Rng) :=
  if y < GRID_HEIGHT - 1 ∧ (0 ≤ waterNewX5 r x ∧ waterNewX5 r x < (GRID_WIDTH : Int)) then
    (getCI g y (waterNewX5 r x)).bind fun p5 =>
    if p5.empty then
      (getCI g (y + 1) (waterCheckX5 r x)).bind fun pc5 =>
      if pc5.kind = Kind.Water then
        (getC g y x).bind fun ps =>
        (setCellCI g y (waterNewX5 r x) ps).bind fun g1 =>
        (setCellC g1 y x Particle.default).bind fun g2 => some (g2, wRest r)
      else some (g, wRest r)
    else some (g, wRest r)
  else some (g, wRest r)

/-- Second lateral candidate of the Kind::Water arm, bounds-checked:
the ungated lateral move to new_x4, falling through to the third
candidate. -/
def waterCand4Safe (g : Grid) (r : Rng) (y x : Nat) : Option (Grid × Rng) :=
  if 0 ≤ waterNewX4 r x ∧ waterNewX4 r x < (GRID_WIDTH : Int) then
    (getCI g y (waterNewX4 r x)).bind fun p4 =>
    if p4.empty then
      (getC g y x).bind fun ps =>
      (setCellCI g y (waterNewX4 r x) ps).bind fun g1 =>
      (setCellC g1 y x Particle.default).bind fun g2 => some (g2, wRest r)
    else waterCand5Safe g r y x
  else waterCand5Safe g r y x

/-- The three lateral candidates of the Kind::Water arm (the else branch
of its straight-down test), bounds-checked, with the && short-circuit of
the source kept: a cell is read only after every boolean guard to its
left has held. -/
def waterElseSafe (g : Grid) (r : Rng) (y x : Nat) : Option (Grid × Rng) :=
  if y < GRID_HEIGHT - 1 ∧ (0 ≤ waterNewX1 r x ∧ waterNewX1 r x < (GRID_WIDTH : Int)) then
    (getCI g (y + 1) (waterNewX1 r x)).bind fun p1 =>
    if p1.empty then
      (getCI g (y + 1) (waterCheckX1 r x)).bind fun pc1 =>
      if pc1.kind = Kind.Water then
        (getC g y x).bind fun ps =>
        (setCellCI g (y + 1) (waterNewX1 r x) ps).bind fun g1 =>
        (setCellC g1 y x Particle.default).bind fun g2 => some (g2, wRest r)
      else waterCand4Safe g r y x
    else waterCand4Safe g r y x
  else waterCand4Safe g r y x

/-- The Kind::Water arm with every array access bounds-checked: the
straight-down candidate, then the else branch with its three lateral
candidates. -/
def waterStepSafe (g : Grid) (r : Rng) (y x : Nat) : Option (Grid × Rng) :=
  if y < GRID_HEIGHT - 1 then
    (getC g (y + 1) x).bind fun pd =>
    if pd.empty then
      (getC g y x).bind fun ps =>
      (setCellC g (y + 1) x ps).bind fun g1 =>
      (setCellC g1 y x Particle.default).bind fun g2 => some (g2, r)
    else waterElseSafe g r y x
  else waterElseSafe g r y x

/-- One scan step with every array access bounds-checked: the skip test
read, the toggle write, and the per-kind arm. -/
def stepCellSafe (clock : Bool) (g : Grid) (r : Rng) (y x : Nat) : Option (Grid × Rng) :=
  (getC g y x).bind fun p =>
  if p.touched == clock then some (g, r)
  else
    (setCellC g y x { kind := p.kind, touched := !p.touched }).bind fun gT =>
    match p.kind with
    | Kind.Empty => some (gT, r)
    | Kind.Stone => some (gT, r)
    | Kind.Sand => sandStepSafe gT r y x
    | Kind.Gravel => gravelStepSafe gT r y x
    | Kind.Water => waterStepSafe gT r y x

/-- One row of the scan, bounds-checked, short-circuiting on the first
out-of-bounds access. -/
def scanRowSafe (clock : Bool) (y : Nat) (gr : Grid × Rng) : Option (Grid × Rng) :=
  (xOrd clock).foldlM (fun gr x => stepCellSafe clock gr.1 gr.2 y x) gr

/-- World::update with every array access bounds-checked. -/
def updateSafe (w : World) (r : Rng) : Option (World × Rng) :=
  let clock := !w.clock
  (yOrd.foldlM (fun gr y => scanRowSafe clock y gr) (w.particles, r)).map
    fun gr => ({ particles := gr.1, clock := clock }, gr.2)

theorem getC_pos (g : Grid) {y x : Nat} (hy : y < GRID_HEIGHT) (hx : x < GRID_WIDTH) :
    getC g y x = some (g y x) := if_pos ⟨hy, hx⟩

theorem setCellC_pos (g : Grid) {y x : Nat} (p : Particle)
    (hy : y < GRID_HEIGHT) (hx : x < GRID_WIDTH) :
    setCellC g y x p = some (setCell g y x p) := if_pos ⟨hy, hx⟩

theorem getCI_pos (g : Grid) {y : Nat} {i : Int} (hy : y < GRID_HEIGHT)
    (h0 : 0 ≤ i) (hW : i < (GRID_WIDTH : Int)) :
    getCI g y i = some (g y i.toNat) := if_pos ⟨hy, h0, hW⟩

theorem setCellCI_pos (g : Grid) {y : Nat} {i : Int} (p : Particle) (hy : y < GRID_HEIGHT)
    (h0 : 0 ≤ i) (hW : i < (GRID_WIDTH : Int)) :
    setCellCI g y i p = some (setCell g y i.toNat p) := if_pos ⟨hy, h0, hW⟩

/-- check_x1 carries no bounds check in the source; it is in bounds
whenever x is and new_x1 passed its check, because the offset n - 1 lies
between 0 and the offset n of new_x1. -/
theorem check1_bounds (r : Rng) (x : Nat) (hx : x < GRID_WIDTH)
    (h : 0 ≤ waterNewX1 r x ∧ waterNewX1 r x < (GRID_WIDTH : Int)) :
    0 ≤ waterCheckX1 r x ∧ waterCheckX1 r x < (GRID_WIDTH : Int) := by
  obtain ⟨hn1, hn2⟩ := wN1_mem r
  have hxW : x < 320 := hx
  have hW : (GRID_WIDTH : Int) = 320 := rfl
  unfold waterNewX1 at h
  unfold waterCheckX1
  rw [hW] at h ⊢
  rcases boolToInt_cases (wSb1 r) with hb | hb <;> rw [hb] at h ⊢ <;> omega

/-- check_x5 carries no bounds check in the source; in bounds for the
same reason as check_x1, with n drawn from 2..5. -/
theorem check5_bounds (r : Rng) (x : Nat) (hx : x < GRID_WIDTH)
    (h : 0 ≤ waterNewX5 r x ∧ waterNewX5 r x < (GRID_WIDTH : Int)) :
    0 ≤ waterCheckX5 r x ∧ waterCheckX5 r x < (GRID_WIDTH : Int) := by
  obtain ⟨hn1, hn2⟩ := wN5_mem r
  have hxW : x < 320 := hx
  have hW : (GRID_WIDTH : Int) = 320 := rfl
  unfold waterNewX5 at h
  unfold waterCheckX5
  rw [hW] at h ⊢
  rcases boolToInt_cases (wSb5 r) with hb | hb <;> rw [hb] at h ⊢ <;> omega

theorem gravelStepSafe_eq (g : Grid) (r : Rng) (y x : Nat)
    (hy : y < GRID_HEIGHT) (hx : x < GRID_WIDTH) :
    gravelStepSafe g r y x = some (gravelStep g r y x) := by
  unfold gravelStepSafe gravelStep
  by_cases hd : y < GRID_HEIGHT - 1
  · have hy1 : y + 1 < GRID_HEIGHT := by
      have h240 : GRID_HEIGHT = 240 := rfl
      omega
    rw [if_pos hd, if_pos hd]
    simp only [getC_pos g hy1 hx, Option.some_bind]
    by_cases he : ((g (y + 1) x).empty || ((g (y + 1) x).kind == Kind.Water)) = true
    · rw [if_pos he, if_pos he]
      simp only [getC_pos g hy hx, Option.some_bind,
        setCellC_pos g (g (y + 1) x) hy hx, setCellC_pos _ (g y x) hy1 hx]
      rfl
    · rw [if_neg he, if_neg he]
  · rw [if_neg hd, if_neg hd]

theorem sandStepSafe_eq (g : Grid) (r : Rng) (y x : Nat)
    (hy : y < GRID_HEIGHT) (hx : x < GRID_WIDTH) :
    sandStepSafe g r y x = some (sandStep g r y x) := by
  unfold sandStepSafe sandStep
  by_cases hd : y < GRID_HEIGHT - 1
  · have hy1 : y + 1 < GRID_HEIGHT := by
      have h240 : GRID_HEIGHT = 240 := rfl
      omega
    rw [if_pos hd, if_pos hd]
    simp only [getC_pos g hy1 hx, Option.some_bind]
    by_cases he : ((g (y + 1) x).empty || ((g (y + 1) x).kind == Kind.Water)) = true
    · rw [if_pos he, if_pos he]
      simp only [getC_pos g hy hx, Option.some_bind,
        setCellC_pos g (g (y + 1) x) hy hx, setCellC_pos _ (g y x) hy1 hx]
      rfl
    · rw [if_neg he, if_neg he]
      by_cases hv : 0 ≤ sandNewX r x ∧ sandNewX r x < (GRID_WIDTH : Int)
      · rw [if_pos hv, if_pos hv]
        simp only [getCI_pos g hy1 hv.1 hv.2, Option.some_bind]
        by_cases he2 : ((g (y + 1) (sandNewX r x).toNat).empty ||
            ((g (y + 1) (sandNewX r x).toNat).kind == Kind.Water)) = true
        · rw [if_pos he2, if_pos he2]
          simp only [getC_pos g hy hx, Option.some_bind,
            setCellC_pos g (g (y + 1) (sandNewX r x).toNat) hy hx,
            setCellCI_pos _ (g y x) hy1 hv.1 hv.2]
          rfl
        · rw [if_neg he2, if_neg he2]
      · rw [if_neg hv, if_neg hv]
  · rw [if_neg hd, if_neg hd]

theorem waterCand5Safe_eq (g : Grid) (r : Rng) (y x : Nat)
    (hy : y < GRID_HEIGHT) (hx : x < GRID_WIDTH) :
    waterCand5Safe g r y x =
      some (if y < GRID_HEIGHT - 1 ∧ (0 ≤ waterNewX5 r x ∧ waterNewX5 r x < (GRID_WIDTH : Int)) ∧
          (g y (waterNewX5 r x).toNat).empty ∧
          (g (y + 1) (waterCheckX5 r x).toNat).kind = Kind.Water then
        (setCell (setCell g y (waterNewX5 r x).toNat (g y x)) y x Particle.default, wRest r)
      else (g, wRest r)) := by
  unfold waterCand5Safe
  by_cases hg : y < GRID_HEIGHT - 1 ∧ (0 ≤ waterNewX5 r x ∧ waterNewX5 r x < (GRID_WIDTH : Int))
  · have hy1 : y + 1 < GRID_HEIGHT := by
      have h240 : GRID_HEIGHT = 240 := rfl
      omega
    rw [if_pos hg]
    simp only [getCI_pos g hy hg.2.1 hg.2.2, Option.some_bind]
    by_cases he : (g y (waterNewX5 r x).toNat).empty = true
    · rw [if_pos he]
      obtain ⟨hc0, hcW⟩ := check5_bounds r x hx hg.2
      simp only [getCI_pos g hy1 hc0 hcW, Option.some_bind]
      by_cases hk : (g (y + 1) (waterCheckX5 r x).toNat).kind = Kind.Water
      · rw [if_pos hk]
        simp only [getC_pos g hy hx, Option.some_bind,
          setCellCI_pos g (g y x) hy hg.2.1 hg.2.2,
          setCellC_pos _ Particle.default hy hx]
        rw [if_pos ⟨hg.1, hg.2, he, hk⟩]
      · rw [if_neg hk, if_neg (fun hc => hk hc.2.2.2)]
    · rw [if_neg he, if_neg (fun hc => he hc.2.2.1)]
  · rw [if_neg hg, if_neg (fun hc => hg ⟨hc.1, hc.2.1⟩)]

theorem waterCand4Safe_eq (g : Grid) (r : Rng) (y x : Nat)
    (hy : y < GRID_HEIGHT) (hx : x < GRID_WIDTH) :
    waterCand4Safe g r y x =
      some (if (0 ≤ waterNewX4 r x ∧ waterNewX4 r x < (GRID_WIDTH : Int)) ∧
          (g y (waterNewX4 r x).toNat).empty then
        (setCell (setCell g y (waterNewX4 r x).toNat (g y x)) y x Particle.default, wRest r)
      else if y < GRID_HEIGHT - 1 ∧ (0 ≤ waterNewX5 r x ∧ waterNewX5 r x < (GRID_WIDTH : Int)) ∧
          (g y (waterNewX5 r x).toNat).empty ∧
          (g (y + 1) (waterCheckX5 r x).toNat).kind = Kind.Water then
        (setCell (setCell g y (waterNewX5 r x).toNat (g y x)) y x Particle.default, wRest r)
      else (g, wRest r)) := by
  unfold waterCand4Safe
  by_cases hv : 0 ≤ waterNewX4 r x ∧ waterNewX4 r x < (GRID_WIDTH : Int)
  · rw [if_pos hv]
    simp only [getCI_pos g hy hv.1 hv.2, Option.some_bind]
    by_cases he : (g y (waterNewX4 r x).toNat).empty = true
    · rw [if_pos he]
      simp only [getC_pos g hy hx, Option.some_bind,
        setCellCI_pos g (g y x) hy hv.1 hv.2,
        setCellC_pos _ Particle.default hy hx]
      rw [if_pos ⟨hv, he⟩]
    · rw [if_neg he, if_neg (fun hc => he hc.2), waterCand5Safe_eq g r y x hy hx]
  · rw [if_neg hv, if_neg (fun hc => hv hc.1), waterCand5Safe_eq g r y x hy hx]

theorem waterElseSafe_eq (g : Grid) (r : Rng) (y x : Nat)
    (hy : y < GRID_HEIGHT) (hx : x < GRID_WIDTH) :
    waterElseSafe g r y x =
      some (if y < GRID_HEIGHT - 1 ∧ (0 ≤ waterNewX1 r x ∧ waterNewX1 r x < (GRID_WIDTH : Int)) ∧
          (g (y + 1) (waterNewX1 r x).toNat).empty ∧
          (g (y + 1) (waterCheckX1 r x).toNat).kind = Kind.Water then
        (setCell (setCell g (y + 1) (waterNewX1 r x).toNat (g y x)) y x Particle.default, wRest r)
      else if (0 ≤ waterNewX4 r x ∧ waterNewX4 r x < (GRID_WIDTH : Int)) ∧
          (g y (waterNewX4 r x).toNat).empty then
        (setCell (setCell g y (waterNewX4 r x).toNat (g y x)) y x Particle.default, wRest r)
      else if y < GRID_HEIGHT - 1 ∧ (0 ≤ waterNewX5 r x ∧ waterNewX5 r x < (GRID_WIDTH : Int)) ∧
          (g y (waterNewX5 r x).toNat).empty ∧
          (g (y + 1) (waterCheckX5 r x).toNat).kind = Kind.Water then
        (setCell (setCell g y (waterNewX5 r x).toNat (g y x)) y x Particle.default, wRest r)
      else (g, wRest r)) := by
  unfold waterElseSafe
  by_cases hg : y < GRID_HEIGHT - 1 ∧ (0 ≤ waterNewX1 r x ∧ waterNewX1 r x < (GRID_WIDTH : Int))
  · have hy1 : y + 1 < GRID_HEIGHT := by
      have h240 : GRID_HEIGHT = 240 := rfl
      omega
    rw [if_pos hg]
    simp only [getCI_pos g hy1 hg.2.1 hg.2.2, Option.some_bind]
    by_cases he : (g (y + 1) (waterNewX1 r x).toNat).empty = true
    · rw [if_pos he]
      obtain ⟨hc0, hcW⟩ := check1_bounds r x hx hg.2
      simp only [getCI_pos g hy1 hc0 hcW, Option.some_bind]
      by_cases hk : (g (y + 1) (waterCheckX1 r x).toNat).kind = Kind.Water
      · rw [if_pos hk]
        simp only [getC_pos g hy hx, Option.some_bind,
          setCellCI_pos g (g y x) hy1 hg.2.1 hg.2.2,
          setCellC_pos _ Particle.default hy hx]
        rw [if_pos ⟨hg.1, hg.2, he, hk⟩]
      · rw [if_neg hk, if_neg (fun hc => hk hc.2.2.2), waterCand4Safe_eq g r y x hy hx]
    · rw [if_neg he, if_neg (fun hc => he hc.2.2.1), waterCand4Safe_eq g r y x hy hx]
  · rw [if_neg hg, if_neg (fun hc => hg ⟨hc.1, hc.2.1⟩), waterCand4Safe_eq g r y x hy hx]

theorem waterStepSafe_eq (g : Grid) (r : Rng) (y x : Nat)
    (hy : y < GRID_HEIGHT) (hx : x < GRID_WIDTH) :
    waterStepSafe g r y x = some (waterStep g r y x) := by
  unfold waterStepSafe waterStep
  by_cases hd : y < GRID_HEIGHT - 1
  · have hy1 : y + 1 < GRID_HEIGHT := by
      have h240 : GRID_HEIGHT = 240 := rfl
      omega
    rw [if_pos hd]
    simp only [getC_pos g hy1 hx, Option.some_bind]
    by_cases he : (g (y + 1) x).empty = true
    · rw [if_pos he]
      simp only [getC_pos g hy hx, Option.some_bind,
        setCellC_pos g (g y x) hy1 hx,
        setCellC_pos _ Particle.default hy hx]
      rw [if_pos ⟨hd, he⟩]
    · rw [if_neg he, if_neg (fun hc => he hc.2), waterElseSafe_eq g r y x hy hx]
  · rw [if_neg hd, if_neg (fun hc => hd hc.1), waterElseSafe_eq g r y x hy hx]

theorem stepCellSafe_eq (clock : Bool) (g : Grid) (r : Rng) (y x : Nat)
    (hy : y < GRID_HEIGHT) (hx : x < GRID_WIDTH) :
    stepCellSafe clock g r y x = some (stepCell clock g r y x) := by
  unfold stepCellSafe stepCell
  simp only [getC_pos g hy hx, Option.some_bind]
  by_cases ht : ((g y x).touched == clock) = true
  · rw [if_pos ht, if_pos ht]
  · rw [if_neg ht, if_neg ht]
    simp only [setCellC_pos g { kind := (g y x).kind, touched := !(g y x).touched } hy hx,
      Option.some_bind]
    rcases kind_enum (g y x).kind with hk | hk | hk | hk | hk <;> rw [hk]
    · exact sandStepSafe_eq
        (setCell g y x { kind := Kind.Sand, touched := !(g y x).touched }) r y x hy hx
    · exact gravelStepSafe_eq
        (setCell g y x { kind := Kind.Gravel, touched := !(g y x).touched }) r y x hy hx
    · exact waterStepSafe_eq
        (setCell g y x { kind := Kind.Water, touched := !(g y x).touched }) r y x hy hx

/-- A checked foldl that succeeds at every list element computes the
unchecked foldl. -/
theorem foldlM_some {α β : Type} (L : List β) (fs : α → β → Option α) (f : α → β → α)
    (h : ∀ b ∈ L, ∀ a, fs a b = some (f a b)) :
    ∀ init, L.foldlM fs init = some (L.foldl f init) := by
  induction L with
  | nil => intro init; rfl
  | cons b L ih =>
    intro init
    rw [List.foldlM_cons, List.foldl_cons, h b (List.mem_cons_self b L) init]
    show some (f init b) >>= (fun a => L.foldlM fs a) = _
    rw [Option.bind_eq_bind, Option.some_bind]
    exact ih (fun c hc a => h c (List.mem_cons_of_mem b hc) a) (f init b)

theorem scanRowSafe_eq (clock : Bool) (y : Nat) (hy : y < GRID_HEIGHT) (gr : Grid × Rng) :
    scanRowSafe clock y gr = some (scanRow clock y gr) := by
  unfold scanRowSafe scanRow
  exact foldlM_some (xOrd clock) _ _
    (fun x hx gr => stepCellSafe_eq clock gr.1 gr.2 y x hy ((mem_xOrd clock x).mp hx)) gr

/-- C9.  Indexing safety of the update engine: with every array access of
World::update bounds-checked (out-of-range access modeled as none,
including i32-to-usize wrap of a negative column), a full tick never
fails and computes exactly the unchecked update; in particular the
stepping-stone columns check_x1 and check_x5, which the source indexes
without any bounds check of their own, are always in bounds whenever the
corresponding destination column passes its check, because the offset
n - 1 lies between 0 and the destination offset n. -/
theorem C9_indexing_safety (w : World) (r : Rng) :
    updateSafe w r = some (World.update w r) := by
  have hfold : List.foldlM (fun gr y => scanRowSafe (!w.clock) y gr)
        ((w.particles, r) : Grid × Rng) yOrd =
      some (List.foldl (fun gr y => scanRow (!w.clock) y gr) (w.particles, r) yOrd) :=
    foldlM_some yOrd _ _
      (fun y hy gr => scanRowSafe_eq (!w.clock) y ((mem_yOrd y).mp hy) gr) (w.particles, r)
  unfold updateSafe World.update
  simp only [hfold]
  rfl
